import Mathlib

/-!
# ledger-importer: `src/import_csv.js`

A shallow embedding of `importCsv` and `parseDate`, followed by the
properties established about them.

Modelling conventions
* A JavaScript string is a `List Char`.  The file is read with the `utf8`
  encoding, so its content is a sequence of Unicode scalar values.
* A JavaScript number is a `JSNum`: `NaN`, the two infinities, or a finite
  value carried as the exact rational it denotes.  Rounding to binary64 and
  the sign of zero are not represented; every comparison made by the source
  (`< 0`, `> 0`, `=== 0`) treats `-0` like `0`.
* `undefined` is `none`; an array index is an `Int` because `findIndex`
  answers `-1` and the source indexes with that value.
* The host built-ins whose result is fixed outside this repository
  (`Number` applied to a string, `Date.parse`, `crypto` SHA-256 and the
  non-ASCII part of `toLowerCase`) are fields of `Builtins`; the general
  theorems hold for every choice of them.  `refEnv` is a concrete instance
  used to run the scenarios.
* The database is a pair of tables.  `db.transaction` restores the tables
  when its body throws.  Every call made on `db` or on a prepared statement
  is recorded in a trace.  The two inserts are taken to succeed: faults of
  the storage layer are outside the model.
-/

namespace LedgerImporter

abbrev JSString := List Char

/-! ## Numbers -/

inductive JSNum where
  | nan
  | ninf
  | fin (q : ℚ)
  | pinf
  deriving DecidableEq

namespace JSNum

/-- The number literal `0`. -/
def zero : JSNum := fin 0

/-- The relational operator `a < b`. -/
def lt : JSNum → JSNum → Bool
  | nan, _ => false
  | _, nan => false
  | ninf, ninf => false
  | ninf, _ => true
  | fin _, ninf => false
  | fin a, fin b => decide (a < b)
  | fin _, pinf => true
  | pinf, _ => false

/-- The relational operator `a > b`. -/
def gt (a b : JSNum) : Bool := lt b a

/-- The strict equality `a === b` on numbers. -/
def strictEq : JSNum → JSNum → Bool
  | nan, _ => false
  | _, nan => false
  | ninf, ninf => true
  | pinf, pinf => true
  | fin a, fin b => decide (a = b)
  | _, _ => false

/-- The function `Math.abs`. -/
def abs : JSNum → JSNum
  | nan => nan
  | ninf => pinf
  | fin q => fin |q|
  | pinf => pinf

/-- The subtraction `a - b`. -/
def sub : JSNum → JSNum → JSNum
  | nan, _ => nan
  | _, nan => nan
  | pinf, pinf => nan
  | ninf, ninf => nan
  | pinf, _ => pinf
  | ninf, _ => ninf
  | fin _, pinf => ninf
  | fin _, ninf => pinf
  | fin a, fin b => fin (a - b)

/-- The test `Number.isNaN`. -/
def isNaN : JSNum → Bool
  | nan => true
  | _ => false

end JSNum

/-! ## Host built-ins -/

structure Builtins where
  /-- `Number(s)` for a string `s`. -/
  stringToNumber : JSString → JSNum
  /-- `Date.parse(s)`: milliseconds since the epoch, `none` for `NaN`. -/
  dateParse : JSString → Option Int
  /-- Lower-case mapping of a character outside Basic Latin. -/
  lowerOther : Char → JSString
  /-- Hex digest of `crypto.createHash('sha256').update(s)`. -/
  sha256 : JSString → JSString

/-! ## Strings -/

/-- The code points removed by `String.prototype.trim`
(WhiteSpace and LineTerminator). -/
def isJSWhiteSpace (c : Char) : Bool :=
  c.toNat ∈ [0x9, 0xA, 0xB, 0xC, 0xD, 0x20, 0xA0, 0x1680, 0x2028, 0x2029, 0x202F, 0x205F,
    0x3000, 0xFEFF] || (0x2000 ≤ c.toNat && c.toNat ≤ 0x200A)

def trimStart (s : JSString) : JSString := s.dropWhile isJSWhiteSpace

def trimEnd (s : JSString) : JSString := (s.reverse.dropWhile isJSWhiteSpace).reverse

/-- The method `String.prototype.trim`. -/
def trim (s : JSString) : JSString := trimEnd (trimStart s)

def lowerChar (E : Builtins) (c : Char) : JSString :=
  if c.toNat < 128 then [c.toLower] else E.lowerOther c

/-- The method `String.prototype.toLowerCase`. -/
def toLowerCase (E : Builtins) (s : JSString) : JSString := s.flatMap (lowerChar E)

/-- The method `String.prototype.split` with a one-character separator. -/
def split (sep : Char) : JSString → List JSString
  | [] => [[]]
  | c :: cs =>
    if c = sep then [] :: split sep cs
    else
      match split sep cs with
      | [] => [[c]]
      | w :: ws => (c :: w) :: ws

/-- The function `path.basename` (POSIX flavour): the last segment of the
path, trailing slashes ignored. -/
def basename (p : JSString) : JSString :=
  ((p.reverse.dropWhile (· = '/')).takeWhile (· ≠ '/')).reverse

/-- The element access `xs[i]`; `none` is `undefined`. -/
def index {α : Type} (xs : List α) (i : Int) : Option α :=
  if i < 0 then none else xs[i.toNat]?

/-! ## Dates -/

/-- TimeClip: a time value outside the supported range is `NaN`. -/
def timeClip (t : Option Int) : Option Int :=
  match t with
  | none => none
  | some v => if |v| ≤ 8640000000000000 then some v else none

/-- The constructor `new Date(value)`, as the time value of the result. -/
def newDate (E : Builtins) (value : Option JSString) : Option Int :=
  match value with
  | none => none
  | some s => timeClip (E.dateParse s)

def digitChar (d : Nat) : Char := Char.ofNat (48 + d % 10)

/-- Decimal digits of `n`, exactly `width` of them (low-order digits kept). -/
def padDigits : Nat → Nat → JSString
  | 0, _ => []
  | w + 1, n => padDigits w (n / 10) ++ [digitChar n]

/-- Civil date (year, month, day) of a day number counted from 1970-01-01,
proleptic Gregorian calendar. -/
def civilFromDays (day : Int) : Int × Nat × Nat :=
  let z := day + 719468
  let era := z / 146097
  let doe := (z % 146097).toNat
  let yoe := (doe - doe / 1460 + doe / 36524 - doe / 146096) / 365
  let doy := doe - (365 * yoe + yoe / 4 - yoe / 100)
  let mp := (5 * doy + 2) / 153
  let d := doy - (153 * mp + 2) / 5 + 1
  let m := if mp < 10 then mp + 3 else mp - 9
  let y := (yoe : Int) + era * 400
  (if m ≤ 2 then y + 1 else y, m, d)

def isoYear (y : Int) : JSString :=
  if 0 ≤ y ∧ y ≤ 9999 then padDigits 4 y.toNat
  else if y < 0 then '-' :: padDigits 6 (-y).toNat
  else '+' :: padDigits 6 y.toNat

/-- The method `Date.prototype.toISOString` on a valid time value. -/
def toISOString (t : Int) : JSString :=
  let ymd := civilFromDays (t / 86400000)
  let ms := (t % 86400000).toNat
  isoYear ymd.1 ++ '-' :: padDigits 2 ymd.2.1 ++ '-' :: padDigits 2 ymd.2.2
    ++ 'T' :: padDigits 2 (ms / 3600000) ++ ':' :: padDigits 2 (ms / 60000 % 60)
    ++ ':' :: padDigits 2 (ms / 1000 % 60) ++ '.' :: padDigits 3 (ms % 1000) ++ ['Z']

/-! ## The importer -/

/-- What `importCsv` and `parseDate` throw. -/
inductive RowReason where
  | missingDescription
  | invalidAmount
  | invalidDebitCredit
  | invalidDate
  deriving DecidableEq

inductive ImportError where
  /-- `TypeError`: `lines[0]` is `undefined`. -/
  | typeError
  /-- `Error('Missing required columns')`. -/
  | missingColumns
  /-- `Error('Row i: reason')`. -/
  | row (i : Nat) (reason : RowReason)
  deriving DecidableEq

inductive Res (α : Type) where
  | ok (a : α)
  | throw (e : ImportError)
  deriving DecidableEq

structure FieldAliases where
  date : List JSString
  description : List JSString
  amount : List JSString
  debit : List JSString
  credit : List JSString

def FIELD_MAP : FieldAliases where
  date := ["date".toList, "txn_date".toList, "posted".toList]
  description := ["description".toList, "memo".toList, "details".toList]
  amount := ["amount".toList, "amt".toList, "value".toList]
  debit := ["debit".toList]
  credit := ["credit".toList]

/-- The method `Array.prototype.findIndex`. -/
def findIndex {α : Type} (p : α → Bool) (xs : List α) : Int :=
  if xs.findIdx p < xs.length then (xs.findIdx p : Int) else -1

def resolveColumn (headers : List JSString) (aliases : List JSString) : Int :=
  findIndex (fun h => aliases.contains h) headers

/-- The five indices computed at lines 30 to 34. -/
structure Columns where
  dateIdx : Int
  descIdx : Int
  amountIdx : Int
  debitIdx : Int
  creditIdx : Int
  deriving DecidableEq

/-- The normalised header cells of line 22. -/
def headerCells (E : Builtins) (line : JSString) : List JSString :=
  (split ',' line).map (fun h => toLowerCase E (trim h))

def resolveColumns (headers : List JSString) : Columns where
  dateIdx := resolveColumn headers FIELD_MAP.date
  descIdx := resolveColumn headers FIELD_MAP.description
  amountIdx := resolveColumn headers FIELD_MAP.amount
  debitIdx := resolveColumn headers FIELD_MAP.debit
  creditIdx := resolveColumn headers FIELD_MAP.credit

def parseDate (E : Builtins) (value : Option JSString) (rowNum : Nat) : Res JSString :=
  match newDate E value with
  | none => .throw (.row rowNum .invalidDate)
  | some t => .ok ((toISOString t).take 10)

/-- The conversion `Number(v)` of a cell that may be `undefined`. -/
def toNumber (E : Builtins) (v : Option JSString) : JSNum :=
  match v with
  | none => .nan
  | some s => E.stringToNumber s

/-- The expression `Number(v || 0)`. -/
def toNumberOrZero (E : Builtins) (v : Option JSString) : JSNum :=
  match v with
  | none => .zero
  | some [] => .zero
  | some (c :: cs) => E.stringToNumber (c :: cs)

structure ImportRecord where
  id : Nat
  source_type : JSString
  source_name : JSString
  source_hash : JSString
  deriving DecidableEq

structure Transaction where
  import_id : Nat
  account_id : Nat
  txn_date : JSString
  description : JSString
  debit : JSNum
  credit : JSNum
  raw_amount : JSNum
  raw_description : JSString
  deriving DecidableEq

/-- The debit, credit and raw amount of a row (lines 77 to 97). -/
def reconcile (E : Builtins) (c : Columns) (cols : List JSString) (i : Nat) :
    Res (JSNum × JSNum × JSNum) :=
  if c.amountIdx ≠ -1 then
    let rawAmount := toNumber E (index cols c.amountIdx)
    if rawAmount.isNaN then .throw (.row i .invalidAmount)
    else if rawAmount.lt .zero then .ok (rawAmount.abs, .zero, rawAmount)
    else .ok (.zero, rawAmount, rawAmount)
  else
    let d := toNumberOrZero E (index cols c.debitIdx)
    let cr := toNumberOrZero E (index cols c.creditIdx)
    if (d.gt .zero && cr.gt .zero) || (d.strictEq .zero && cr.strictEq .zero) then
      .throw (.row i .invalidDebitCredit)
    else .ok (d, cr, cr.sub d)

/-- One iteration of the loop at lines 69 to 109, up to the arguments of
`insertTxn.run`. -/
def normalizeRow (E : Builtins) (c : Columns) (importId accountId : Nat) (line : JSString)
    (i : Nat) : Res Transaction :=
  let cols := split ',' line
  match (index cols c.descIdx).map trim with
  | none => .throw (.row i .missingDescription)
  | some [] => .throw (.row i .missingDescription)
  | some (x :: xs) =>
    match reconcile E c cols i with
    | .throw e => .throw e
    | .ok (debit, credit, rawAmount) =>
      match parseDate E (index cols c.dateIdx) i with
      | .throw e => .throw e
      | .ok date =>
        .ok { import_id := importId, account_id := accountId, txn_date := date,
              description := x :: xs, debit := debit, credit := credit,
              raw_amount := rawAmount, raw_description := x :: xs }

/-- The two tables written by the importer. -/
structure Db where
  imports : List ImportRecord
  transactions : List Transaction
  deriving DecidableEq

inductive Statement where
  | insertImport
  | insertTxn
  deriving DecidableEq

/-- Calls made on the database handle and on its prepared statements. -/
inductive StorageOp where
  | prepare (s : Statement)
  | beginTransaction
  | runInsertImport (source_name source_hash : JSString)
  | runInsertTxn (t : Transaction)
  | commit
  | rollback
  deriving DecidableEq

/-- The value of `info.lastInsertRowid` after an insert into `imports`. -/
def lastInsertRowid (imports : List ImportRecord) : Nat :=
  (imports.map (·.id)).foldl max 0 + 1

/-- The loop at lines 69 to 109 over `lines[i], lines[i+1], ...`: tables and
trace so far, and the error thrown, if any. -/
def rowLoop (E : Builtins) (c : Columns) (importId accountId : Nat) :
    List JSString → Nat → Db → List StorageOp → Db × List StorageOp × Option ImportError
  | [], _, db, tr => (db, tr, none)
  | line :: rest, i, db, tr =>
    match normalizeRow E c importId accountId line i with
    | .throw e => (db, tr, some e)
    | .ok t =>
      rowLoop E c importId accountId rest (i + 1)
        { db with transactions := db.transactions ++ [t] } (tr ++ [.runInsertTxn t])

structure Outcome where
  db : Db
  trace : List StorageOp
  thrown : Option ImportError
  deriving DecidableEq

/-- The non-empty lines of the file (line 21). -/
def fileLines (content : JSString) : List JSString :=
  (split '\n' content).filter (fun l => !l.isEmpty)

/-- The function `importCsv(db, filePath, accountId)`; `content` is what
`fs.readFileSync(filePath, 'utf8')` returns. -/
def importCsv (E : Builtins) (db : Db) (filePath content : JSString) (accountId : Nat) :
    Outcome :=
  match fileLines content with
  | [] => { db := db, trace := [], thrown := some .typeError }
  | header :: rows =>
    let c := resolveColumns (headerCells E header)
    if c.dateIdx = -1 ∨ c.descIdx = -1 then
      { db := db, trace := [], thrown := some .missingColumns }
    else
      let sourceName := basename filePath
      let hash := E.sha256 content
      let tr0 : List StorageOp :=
        [.prepare .insertImport, .prepare .insertTxn, .beginTransaction,
         .runInsertImport sourceName hash]
      let importId := lastInsertRowid db.imports
      let db1 : Db :=
        { db with imports := db.imports ++
            [{ id := importId, source_type := "csv".toList, source_name := sourceName,
               source_hash := hash }] }
      match rowLoop E c importId accountId rows 1 db1 tr0 with
      | (_, tr, some e) => { db := db, trace := tr ++ [.rollback], thrown := some e }
      | (db2, tr, none) => { db := db2, trace := tr ++ [.commit], thrown := none }

/-! ## A reference instance of the built-ins -/

def hexDigitValue (c : Char) : Nat :=
  if c.isDigit then c.toNat - 48
  else if 'a' ≤ c ∧ c ≤ 'f' then c.toNat - 87
  else c.toNat - 55

def isHexDigit (c : Char) : Bool :=
  c.isDigit || ('a' ≤ c && c ≤ 'f') || ('A' ≤ c && c ≤ 'F')

def digitsValue (base : Nat) (ds : JSString) : Nat :=
  ds.foldl (fun n c => base * n + hexDigitValue c) 0

def allDigits (ds : JSString) : Bool := !ds.isEmpty && ds.all Char.isDigit

/-- ExponentPart of a decimal literal, empty allowed. -/
def parseExponent : JSString → Option Int
  | [] => some 0
  | c :: rest =>
    if c = 'e' ∨ c = 'E' then
      match rest with
      | '+' :: ds => if allDigits ds then some (digitsValue 10 ds) else none
      | '-' :: ds => if allDigits ds then some (-(digitsValue 10 ds : Int)) else none
      | ds => if allDigits ds then some (digitsValue 10 ds) else none
    else none

def scale10 (m : Nat) (e : Int) : ℚ :=
  if 0 ≤ e then (m : ℚ) * 10 ^ e.toNat else (m : ℚ) / 10 ^ (-e).toNat

/-- StrUnsignedDecimalLiteral without `Infinity`: `d+`, `d+.d*`, `.d+`, each
with an optional exponent. -/
def parseUnsignedDecimal (s : JSString) : Option ℚ :=
  let ip := s.takeWhile Char.isDigit
  let r1 := s.dropWhile Char.isDigit
  let fp := match r1 with
    | '.' :: r => r.takeWhile Char.isDigit
    | _ => []
  let r2 := match r1 with
    | '.' :: r => r.dropWhile Char.isDigit
    | _ => r1
  if ip.isEmpty && fp.isEmpty then none
  else (parseExponent r2).map (fun e => scale10 (digitsValue 10 (ip ++ fp)) (e - fp.length))

def parseUnsigned (s : JSString) : JSNum :=
  if s = "Infinity".toList then .pinf
  else
    match parseUnsignedDecimal s with
    | some q => .fin q
    | none => .nan

def JSNum.neg : JSNum → JSNum
  | .nan => .nan
  | .ninf => .pinf
  | .fin q => .fin (-q)
  | .pinf => .ninf

def parseRadix (base : Nat) (ok : Char → Bool) (ds : JSString) : JSNum :=
  if !ds.isEmpty && ds.all ok then .fin (digitsValue base ds) else .nan

/-- StringToNumber of ECMAScript, the value of a literal kept exact. -/
def stringToNumber (s : JSString) : JSNum :=
  match trim s with
  | [] => .zero
  | '0' :: 'x' :: ds => parseRadix 16 isHexDigit ds
  | '0' :: 'X' :: ds => parseRadix 16 isHexDigit ds
  | '0' :: 'o' :: ds => parseRadix 8 (fun c => '0' ≤ c && c ≤ '7') ds
  | '0' :: 'O' :: ds => parseRadix 8 (fun c => '0' ≤ c && c ≤ '7') ds
  | '0' :: 'b' :: ds => parseRadix 2 (fun c => c = '0' || c = '1') ds
  | '0' :: 'B' :: ds => parseRadix 2 (fun c => c = '0' || c = '1') ds
  | '+' :: r => parseUnsigned r
  | '-' :: r => (parseUnsigned r).neg
  | r => parseUnsigned r

def isLeapYear (y : Int) : Bool := (y % 4 = 0 && y % 100 ≠ 0) || y % 400 = 0

def daysInMonth (y : Int) (m : Nat) : Nat :=
  if m = 2 then (if isLeapYear y then 29 else 28)
  else if m = 4 ∨ m = 6 ∨ m = 9 ∨ m = 11 then 30 else 31

/-- Day number counted from 1970-01-01 of a civil date. -/
def daysFromCivil (y : Int) (m d : Nat) : Int :=
  let y1 := if m ≤ 2 then y - 1 else y
  let era := y1 / 400
  let yoe := (y1 % 400).toNat
  let mp := if m > 2 then m - 3 else m + 9
  let doy := (153 * mp + 2) / 5 + d - 1
  let doe := yoe * 365 + yoe / 4 - yoe / 100 + doy
  era * 146097 + (doe : Int) - 719468

/-- UTC midnight of a civil date, in milliseconds since the epoch; `none`
when the month or the day is out of range. -/
def utcMidnight (y : Int) (m d : Nat) : Option Int :=
  if 1 ≤ m ∧ m ≤ 12 ∧ 1 ≤ d ∧ d ≤ daysInMonth y m then
    some (daysFromCivil y m d * 86400000)
  else none

/-- The date-only forms `YYYY-MM-DD` and, with an expanded year,
`+YYYYYY-MM-DD` and `-YYYYYY-MM-DD` of the ECMAScript date-time string
format, read as UTC midnight.  Every other text is unparsable here: what a
host makes of it is implementation-defined. -/
def isoDateParse (s : JSString) : Option Int :=
  match s with
  | [y1, y2, y3, y4, '-', m1, m2, '-', d1, d2] =>
    if allDigits [y1, y2, y3, y4, m1, m2, d1, d2] then
      utcMidnight (digitsValue 10 [y1, y2, y3, y4]) (digitsValue 10 [m1, m2])
        (digitsValue 10 [d1, d2])
    else none
  | [sg, y1, y2, y3, y4, y5, y6, '-', m1, m2, '-', d1, d2] =>
    if allDigits [y1, y2, y3, y4, y5, y6, m1, m2, d1, d2] then
      if sg = '+' then
        utcMidnight (digitsValue 10 [y1, y2, y3, y4, y5, y6]) (digitsValue 10 [m1, m2])
          (digitsValue 10 [d1, d2])
      else if sg = '-' ∧ digitsValue 10 [y1, y2, y3, y4, y5, y6] ≠ 0 then
        utcMidnight (-(digitsValue 10 [y1, y2, y3, y4, y5, y6] : Int))
          (digitsValue 10 [m1, m2]) (digitsValue 10 [d1, d2])
      else none
    else none
  | _ => none

/-- Reference built-ins.  The digest is a stand-in (the content itself):
the importer stores the digest and never inspects it. -/
def refEnv : Builtins where
  stringToNumber := stringToNumber
  dateParse := isoDateParse
  lowerOther := fun c => [c]
  sha256 := fun s => s


/-! ## Vocabulary of the statements -/

/-- The transactions of the rows accepted before the first failure, in
order, and that failure if there is one: what the loop of `rowLoop`
computes, without the tables and the trace. -/
def scanRows (E : Builtins) (c : Columns) (importId accountId : Nat) :
    List JSString → Nat → List Transaction × Option ImportError
  | [], _ => ([], none)
  | line :: rest, i =>
    match normalizeRow E c importId accountId line i with
    | .throw e => ([], some e)
    | .ok t =>
      ((t :: (scanRows E c importId accountId rest (i + 1)).1),
        (scanRows E c importId accountId rest (i + 1)).2)

/-- The data line `line` fails normalization under the columns `c`. -/
def RowFails (E : Builtins) (c : Columns) (line : JSString) : Prop :=
  ∃ importId accountId i e, normalizeRow E c importId accountId line i = .throw e

/-- The calls that precede the row loop: both `prepare`, the start of the
transaction and the insert of the import record. -/
def openingOps (E : Builtins) (filePath content : JSString) : List StorageOp :=
  [.prepare .insertImport, .prepare .insertTxn, .beginTransaction,
   .runInsertImport (basename filePath) (E.sha256 content)]

/-- The import record written by `insertImport.run`. -/
def newImport (E : Builtins) (db : Db) (filePath content : JSString) : ImportRecord where
  id := lastInsertRowid db.imports
  source_type := "csv".toList
  source_name := basename filePath
  source_hash := E.sha256 content

/-! ## Sample inputs -/

def emptyDb : Db := { imports := [], transactions := [] }

/-- A store that already holds one import and one transaction. -/
def sampleDb : Db where
  imports := [{ id := 1, source_type := "csv".toList, source_name := "old.csv".toList,
                source_hash := "00".toList }]
  transactions := [{ import_id := 1, account_id := 3, txn_date := "2023-12-31".toList,
                     description := "Opening".toList, debit := .zero, credit := .fin 10,
                     raw_amount := .fin 10, raw_description := "Opening".toList }]

def stmtPath : JSString := "/data/stmt.csv".toList

/-- Scenario A of the specification. -/
def scenarioA : JSString := "date,description,amount\n2024-01-05,Coffee,-4.50".toList

/-- Scenario B of the specification. -/
def scenarioB : JSString := "date,description,debit,credit\n2024-01-05,Paycheck,0,1500".toList

/-- Scenario C of the specification. -/
def scenarioC : JSString := "date,description,debit,credit\n2024-01-05,Bad,100,50".toList

/-- A valid row, then the row of Scenario C, with blank lines around. -/
def goodThenBad : JSString :=
  "date,description,debit,credit\n\n2024-01-05,Paycheck,0,1500\n\n2024-01-06,Bad,100,50\n".toList

def amountColumns : Columns :=
  { dateIdx := 0, descIdx := 1, amountIdx := 2, debitIdx := -1, creditIdx := -1 }

/-- The contract of lines 13 to 17: exactly one of debit and credit is
strictly positive and the other is zero. -/
def exactlyOnePositive (t : Transaction) : Bool :=
  (t.debit.gt .zero && t.credit.strictEq .zero) ||
    (t.credit.gt .zero && t.debit.strictEq .zero)

def zeroAmountFile : JSString := "date,description,amount\n2024-01-05,Zero,0".toList

def negativeDebitFile : JSString :=
  "date,description,debit,credit\n2024-01-05,Refund,-5,0".toList

def textDebitFile : JSString :=
  "date,description,debit,credit\n2024-01-05,Typo,abc,10".toList

/-- The transaction of Scenario A. -/
def coffeeTxn : Transaction where
  import_id := 1
  account_id := 7
  txn_date := "2024-01-05".toList
  description := "Coffee".toList
  debit := .fin (9 / 2)
  credit := .fin 0
  raw_amount := .fin (-9 / 2)
  raw_description := "Coffee".toList

/-- The row is rejected by the test of line 91. -/
def splitRejected (d cr : JSNum) : Bool :=
  (d.gt .zero && cr.gt .zero) || (d.strictEq .zero && cr.strictEq .zero)

/-- The five alias sets of `FIELD_MAP`. -/
def aliasSets : List (List JSString) :=
  [FIELD_MAP.date, FIELD_MAP.description, FIELD_MAP.amount, FIELD_MAP.debit, FIELD_MAP.credit]

/-- The normalised cell `h2` is `h1`, or another accepted spelling of the
canonical field that `h1` spells. -/
def SameField (h1 h2 : JSString) : Prop :=
  h1 = h2 ∨ ∃ A ∈ aliasSets, h1 ∈ A ∧ h2 ∈ A

/-- The relational operator `a >= b`. -/
def JSNum.ge (a b : JSNum) : Bool := !a.isNaN && !b.isNaN && !JSNum.lt a b

/-- Two invalid rows: the first has an invalid amount and an invalid date,
the second has no description. -/
def twoBadRows : JSString :=
  "date,description,amount\nsomeday,Coffee,abc\n2024-01-05,,5".toList

/-- A file with a date and a description column and no amount-bearing
column. -/
def noAmountFile : JSString := "date,description\n2024-01-05,Coffee".toList

/-- A row dated in the year 10000, written with an expanded year. -/
def farFutureFile : JSString := "date,description,amount\n+010000-01-01,Future,5".toList

/-! # Properties -/

/-! ## Header resolution -/

theorem findIndex_eq_neg_one {α : Type} (p : α → Bool) (xs : List α) :
    findIndex p xs = -1 ↔ ∀ x ∈ xs, p x = false := by
  unfold findIndex
  constructor
  · intro h
    by_cases hlt : xs.findIdx p < xs.length
    · rw [if_pos hlt] at h
      omega
    · have : xs.findIdx p = xs.length := by
        have hle : xs.findIdx p ≤ xs.length := List.findIdx_le_length p
        omega
      exact List.findIdx_eq_length.mp this
  · intro h
    have : xs.findIdx p = xs.length := List.findIdx_eq_length.mpr h
    rw [if_neg (by omega)]

theorem findIndex_eq_natCast {α : Type} (p : α → Bool) (xs : List α) (i : Nat) :
    findIndex p xs = (i : Int) ↔
      ∃ x, xs[i]? = some x ∧ p x = true ∧ ∀ j, j < i → ∀ y, xs[j]? = some y → p y = false := by
  unfold findIndex
  constructor
  · intro h
    by_cases hlt : xs.findIdx p < xs.length
    · rw [if_pos hlt] at h
      have hi : xs.findIdx p = i := by exact_mod_cast h
      subst hi
      refine ⟨xs[xs.findIdx p], List.getElem?_eq_getElem hlt, List.findIdx_getElem, ?_⟩
      intro j hj y hy
      have hjl : j < xs.length := by omega
      rw [List.getElem?_eq_getElem hjl] at hy
      have := List.not_of_lt_findIdx hj
      simp only [Option.some.injEq] at hy
      rw [← hy]
      exact this
    · rw [if_neg hlt] at h
      omega
  · rintro ⟨x, hx, hpx, hmin⟩
    have hil : i < xs.length := by
      rcases List.getElem?_eq_some.mp hx with ⟨h, -⟩
      exact h
    have hxi : xs[i] = x := by
      rcases List.getElem?_eq_some.mp hx with ⟨_, h⟩
      exact h
    have hfi : xs.findIdx p = i := by
      rw [List.findIdx_eq hil]
      refine ⟨by rw [hxi]; exact hpx, ?_⟩
      intro j hj
      exact hmin j hj _ (List.getElem?_eq_getElem (by omega))
    rw [hfi, if_pos hil]

theorem findIndex_cases {α : Type} (p : α → Bool) (xs : List α) :
    findIndex p xs = -1 ∨ ∃ i : Nat, i < xs.length ∧ findIndex p xs = (i : Int) := by
  unfold findIndex
  by_cases hlt : xs.findIdx p < xs.length
  · exact Or.inr ⟨_, hlt, by rw [if_pos hlt]⟩
  · exact Or.inl (by rw [if_neg hlt])

/-- C8. `resolveColumn` answers the smallest index whose header is one of the
aliases, and `-1` exactly when no header is one of the aliases; it is a
function of its two arguments only. -/
theorem resolveColumn_first_match (headers aliases : List JSString) :
    (resolveColumn headers aliases = -1 ↔ ∀ h ∈ headers, h ∉ aliases) ∧
    (∀ i : Nat, resolveColumn headers aliases = (i : Int) ↔
      ∃ h, headers[i]? = some h ∧ h ∈ aliases ∧
        ∀ j, j < i → ∀ g, headers[j]? = some g → g ∉ aliases) ∧
    (resolveColumn headers aliases = -1 ∨
      ∃ i : Nat, i < headers.length ∧ resolveColumn headers aliases = (i : Int)) := by
  refine ⟨?_, ?_, ?_⟩
  · unfold resolveColumn
    rw [findIndex_eq_neg_one]
    simp
  · intro i
    unfold resolveColumn
    rw [findIndex_eq_natCast]
    simp
  · exact findIndex_cases _ _

/-! ## The row loop and the transaction -/

theorem rowLoop_eq_scanRows (E : Builtins) (c : Columns) (importId accountId : Nat)
    (rows : List JSString) (i : Nat) (db : Db) (tr : List StorageOp) :
    rowLoop E c importId accountId rows i db tr =
      ({ db with transactions :=
          db.transactions ++ (scanRows E c importId accountId rows i).1 },
       tr ++ (scanRows E c importId accountId rows i).1.map .runInsertTxn,
       (scanRows E c importId accountId rows i).2) := by
  induction rows generalizing i db tr with
  | nil => simp [rowLoop, scanRows]
  | cons line rest ih =>
    unfold rowLoop scanRows
    cases h : normalizeRow E c importId accountId line i with
    | throw e => simp
    | ok t => simp [ih]

/-- The importer once the header line is known and both required columns
resolve. -/
theorem importCsv_eq_of_resolved (E : Builtins) (db : Db) (filePath content : JSString)
    (accountId : Nat) (header : JSString) (rows : List JSString)
    (hl : fileLines content = header :: rows)
    (hd : (resolveColumns (headerCells E header)).dateIdx ≠ -1)
    (hs : (resolveColumns (headerCells E header)).descIdx ≠ -1) :
    importCsv E db filePath content accountId =
      match (scanRows E (resolveColumns (headerCells E header)) (lastInsertRowid db.imports)
          accountId rows 1).2 with
      | some e =>
        { db := db
          trace := openingOps E filePath content ++
            (scanRows E (resolveColumns (headerCells E header)) (lastInsertRowid db.imports)
              accountId rows 1).1.map .runInsertTxn ++ [.rollback]
          thrown := some e }
      | none =>
        { db :=
            { imports := db.imports ++ [newImport E db filePath content]
              transactions := db.transactions ++
                (scanRows E (resolveColumns (headerCells E header))
                  (lastInsertRowid db.imports) accountId rows 1).1 }
          trace := openingOps E filePath content ++
            (scanRows E (resolveColumns (headerCells E header)) (lastInsertRowid db.imports)
              accountId rows 1).1.map .runInsertTxn ++ [.commit]
          thrown := none } := by
  unfold importCsv
  rw [hl]
  simp only []
  rw [if_neg (by simp [hd, hs]), rowLoop_eq_scanRows]
  cases h : (scanRows E (resolveColumns (headerCells E header)) (lastInsertRowid db.imports)
      accountId rows 1).2 <;> simp [openingOps, newImport]

theorem importCsv_of_missing (E : Builtins) (db : Db) (filePath content : JSString)
    (accountId : Nat) (header : JSString) (rows : List JSString)
    (hl : fileLines content = header :: rows)
    (hm : (resolveColumns (headerCells E header)).dateIdx = -1 ∨
      (resolveColumns (headerCells E header)).descIdx = -1) :
    importCsv E db filePath content accountId =
      { db := db, trace := [], thrown := some .missingColumns } := by
  unfold importCsv
  rw [hl]
  simp only []
  rw [if_pos hm]

theorem importCsv_of_no_lines (E : Builtins) (db : Db) (filePath content : JSString)
    (accountId : Nat) (hl : fileLines content = []) :
    importCsv E db filePath content accountId =
      { db := db, trace := [], thrown := some .typeError } := by
  unfold importCsv
  rw [hl]

theorem reconcile_cases (E : Builtins) (c : Columns) (cols : List JSString) :
    (∃ r, ∀ j, reconcile E c cols j = .throw (.row j r)) ∨
    (∃ v, ∀ j, reconcile E c cols j = .ok v) := by
  unfold reconcile
  simp only []
  by_cases h1 : c.amountIdx ≠ -1
  · simp only [if_pos h1]
    by_cases h2 : (toNumber E (index cols c.amountIdx)).isNaN = true
    · exact Or.inl ⟨.invalidAmount, fun j => by simp [h2]⟩
    · by_cases h3 : (toNumber E (index cols c.amountIdx)).lt .zero = true
      · exact Or.inr ⟨_, fun j => by simp only [h2, h3]; rfl⟩
      · exact Or.inr ⟨_, fun j => by simp only [h2, h3]; rfl⟩
  · simp only [if_neg h1]
    by_cases h2 : ((toNumberOrZero E (index cols c.debitIdx)).gt .zero &&
        (toNumberOrZero E (index cols c.creditIdx)).gt .zero ||
        (toNumberOrZero E (index cols c.debitIdx)).strictEq .zero &&
        (toNumberOrZero E (index cols c.creditIdx)).strictEq .zero) = true
    · exact Or.inl ⟨.invalidDebitCredit, fun j => by rw [if_pos h2]⟩
    · exact Or.inr ⟨_, fun j => by rw [if_neg h2]⟩

theorem parseDate_cases (E : Builtins) (value : Option JSString) :
    (∀ j, parseDate E value j = .throw (.row j .invalidDate)) ∨
    (∃ d, ∀ j, parseDate E value j = .ok d) := by
  unfold parseDate
  cases newDate E value with
  | none => exact Or.inl (fun j => rfl)
  | some t => exact Or.inr ⟨_, fun j => rfl⟩

/-- A row that fails does so with its own row number and a reason that
depends on neither the identifiers nor the row number. -/
theorem normalizeRow_throw (E : Builtins) (c : Columns) (importId accountId : Nat)
    (line : JSString) (i : Nat) (e : ImportError)
    (h : normalizeRow E c importId accountId line i = .throw e) :
    ∃ r, e = .row i r ∧ ∀ a b j, normalizeRow E c a b line j = .throw (.row j r) := by
  unfold normalizeRow at h ⊢
  simp only [] at h ⊢
  cases hdesc : (index (split ',' line) c.descIdx).map trim with
  | none =>
    rw [hdesc] at h
    cases h
    exact ⟨.missingDescription, rfl, fun _ _ _ => rfl⟩
  | some s =>
    cases s with
    | nil =>
      rw [hdesc] at h
      cases h
      exact ⟨.missingDescription, rfl, fun _ _ _ => rfl⟩
    | cons x xs =>
      rw [hdesc] at h
      simp only [] at h ⊢
      rcases reconcile_cases E c (split ',' line) with ⟨r, hr⟩ | ⟨v, hv⟩
      · rw [hr i] at h
        cases h
        exact ⟨r, rfl, fun _ _ j => by rw [hr j]⟩
      · rw [hv i] at h
        simp only [] at h
        rcases parseDate_cases E (index (split ',' line) c.dateIdx) with hp | ⟨d, hp⟩
        · rw [hp i] at h
          cases h
          exact ⟨.invalidDate, rfl, fun _ _ j => by rw [hv j, hp j]⟩
        · rw [hp i] at h
          cases h

theorem rowFails_iff (E : Builtins) (c : Columns) (line : JSString) (a b j : Nat) :
    RowFails E c line ↔ ∃ r, normalizeRow E c a b line j = .throw (.row j r) := by
  constructor
  · rintro ⟨a1, b1, i, e, h⟩
    rcases normalizeRow_throw E c a1 b1 line i e h with ⟨r, -, hr⟩
    exact ⟨r, hr a b j⟩
  · rintro ⟨r, h⟩
    exact ⟨a, b, j, _, h⟩

/-- The scan stops with an error exactly at the first failing row. -/
theorem scanRows_some_iff (E : Builtins) (c : Columns) (importId accountId : Nat)
    (rows : List JSString) (i : Nat) (e : ImportError) :
    (scanRows E c importId accountId rows i).2 = some e ↔
      ∃ k line, rows[k]? = some line ∧
        normalizeRow E c importId accountId line (i + k) = .throw e ∧
        (scanRows E c importId accountId rows i).1.length = k ∧
        ∀ j, j < k → ∀ l, rows[j]? = some l →
          ∃ t, (scanRows E c importId accountId rows i).1[j]? = some t ∧
            normalizeRow E c importId accountId l (i + j) = .ok t := by
  induction rows generalizing i with
  | nil => simp [scanRows]
  | cons line rest ih =>
    unfold scanRows
    cases h : normalizeRow E c importId accountId line i with
    | throw e1 =>
      simp only []
      constructor
      · intro he
        cases he
        exact ⟨0, line, by simp, by simpa using h, rfl, fun j hj => by omega⟩
      · rintro ⟨k, l, hk, hn, hlen, -⟩
        simp only [List.length_nil] at hlen
        subst hlen
        simp only [List.getElem?_cons_zero, Option.some.injEq] at hk
        subst hk
        simp only [add_zero] at hn
        rw [h] at hn
        cases hn
        rfl
    | ok t =>
      simp only []
      rw [ih (i + 1)]
      constructor
      · rintro ⟨k, l, hk, hn, hlen, hall⟩
        refine ⟨k + 1, l, by simpa using hk, ?_, by simp [hlen], ?_⟩
        · rw [← hn]
          congr 1
          omega
        · intro j hj l1 hl1
          cases j with
          | zero =>
            simp only [List.getElem?_cons_zero, Option.some.injEq] at hl1
            subst hl1
            exact ⟨t, by simp, by simpa using h⟩
          | succ j =>
            simp only [List.getElem?_cons_succ] at hl1 ⊢
            rcases hall j (by omega) l1 hl1 with ⟨t1, ht1, hn1⟩
            refine ⟨t1, ht1, ?_⟩
            rw [← hn1]
            congr 1
            omega
      · rintro ⟨k, l, hk, hn, hlen, hall⟩
        cases k with
        | zero =>
          simp only [List.getElem?_cons_zero, Option.some.injEq] at hk
          subst hk
          simp only [add_zero] at hn
          rw [h] at hn
          cases hn
        | succ k =>
          simp only [List.getElem?_cons_succ] at hk
          refine ⟨k, l, hk, ?_, by simpa using hlen, ?_⟩
          · rw [← hn]
            congr 1
            omega
          · intro j hj l1 hl1
            rcases hall (j + 1) (by omega) l1 (by simpa using hl1) with ⟨t1, ht1, hn1⟩
            simp only [List.getElem?_cons_succ] at ht1
            refine ⟨t1, ht1, ?_⟩
            rw [← hn1]
            congr 1
            omega

/-- The scan ends without an error exactly when every row is accepted, and
then it holds one transaction per row, in order. -/
theorem scanRows_none_iff (E : Builtins) (c : Columns) (importId accountId : Nat)
    (rows : List JSString) (i : Nat) :
    (scanRows E c importId accountId rows i).2 = none ↔
      (scanRows E c importId accountId rows i).1.length = rows.length ∧
      ∀ k line, rows[k]? = some line →
        ∃ t, (scanRows E c importId accountId rows i).1[k]? = some t ∧
          normalizeRow E c importId accountId line (i + k) = .ok t := by
  induction rows generalizing i with
  | nil => simp [scanRows]
  | cons line rest ih =>
    unfold scanRows
    cases h : normalizeRow E c importId accountId line i with
    | throw e1 =>
      simp only []
      constructor
      · intro he
        cases he
      · rintro ⟨hlen, -⟩
        simp at hlen
    | ok t =>
      simp only []
      rw [ih (i + 1)]
      constructor
      · rintro ⟨hlen, hall⟩
        refine ⟨by simp [hlen], ?_⟩
        intro k l hk
        cases k with
        | zero =>
          simp only [List.getElem?_cons_zero, Option.some.injEq] at hk
          subst hk
          exact ⟨t, by simp, by simpa using h⟩
        | succ k =>
          simp only [List.getElem?_cons_succ] at hk ⊢
          rcases hall k l hk with ⟨t1, ht1, hn1⟩
          refine ⟨t1, ht1, ?_⟩
          rw [← hn1]
          congr 1
          omega
      · rintro ⟨hlen, hall⟩
        refine ⟨by simpa using hlen, ?_⟩
        intro k l hk
        rcases hall (k + 1) l (by simpa using hk) with ⟨t1, ht1, hn1⟩
        simp only [List.getElem?_cons_succ] at ht1
        refine ⟨t1, ht1, ?_⟩
        rw [← hn1]
        congr 1
        omega

theorem scanRows_fails_of_rowFails (E : Builtins) (c : Columns) (importId accountId : Nat)
    (rows : List JSString) (i : Nat) (k : Nat) (line : JSString)
    (hk : rows[k]? = some line) (hf : RowFails E c line) :
    (scanRows E c importId accountId rows i).2 ≠ none := by
  intro hnone
  rcases (scanRows_none_iff E c importId accountId rows i).mp hnone with ⟨-, hall⟩
  rcases hall k line hk with ⟨t, -, hn⟩
  rcases (rowFails_iff E c line importId accountId (i + k)).mp hf with ⟨r, hr⟩
  rw [hn] at hr
  cases hr

theorem split_ne_nil (sep : Char) (s : JSString) : split sep s ≠ [] := by
  cases s with
  | nil => simp [split]
  | cons c cs =>
    unfold split
    split
    · simp
    · split <;> simp

theorem split_cons (sep c : Char) (cs : JSString) :
    split sep (c :: cs) =
      if c = sep then [] :: split sep cs
      else
        match split sep cs with
        | [] => [[c]]
        | w :: ws => (c :: w) :: ws := by
  rw [split]

theorem split_append_sep (sep : Char) (a b : JSString) :
    split sep (a ++ sep :: b) = split sep a ++ split sep b := by
  induction a with
  | nil => simp [split]
  | cons c cs ih =>
    simp only [List.cons_append]
    rw [split_cons, split_cons sep c cs, ih]
    by_cases hc : c = sep
    · simp [hc]
    · simp only [if_neg hc]
      cases hs : split sep cs with
      | nil => exact absurd hs (split_ne_nil sep cs)
      | cons w ws => simp

/-- An empty line leaves the list of lines as it is. -/
theorem fileLines_blank_line (a b : JSString) :
    fileLines (a ++ '\n' :: '\n' :: b) = fileLines (a ++ '\n' :: b) := by
  unfold fileLines
  rw [split_append_sep, split_append_sep]
  have : split '\n' ('\n' :: b) = [] :: split '\n' b := by simp [split]
  rw [this]
  simp

theorem fileLines_leading_blank_line (content : JSString) :
    fileLines ('\n' :: content) = fileLines content := by
  unfold fileLines
  rw [split_cons]
  simp

/-- The error thrown depends on the content through its lines only. -/
theorem importCsv_thrown_congr (E : Builtins) (db : Db) (filePath c1 c2 : JSString)
    (accountId : Nat) (h : fileLines c1 = fileLines c2) :
    (importCsv E db filePath c1 accountId).thrown =
      (importCsv E db filePath c2 accountId).thrown := by
  cases hl : fileLines c2 with
  | nil =>
    rw [importCsv_of_no_lines E db filePath c1 accountId (h.trans hl),
      importCsv_of_no_lines E db filePath c2 accountId hl]
  | cons header rows =>
    by_cases hm : (resolveColumns (headerCells E header)).dateIdx = -1 ∨
        (resolveColumns (headerCells E header)).descIdx = -1
    · rw [importCsv_of_missing E db filePath c1 accountId header rows (h.trans hl) hm,
        importCsv_of_missing E db filePath c2 accountId header rows hl hm]
    · have hd : (resolveColumns (headerCells E header)).dateIdx ≠ -1 := fun h => hm (Or.inl h)
      have hs : (resolveColumns (headerCells E header)).descIdx ≠ -1 := fun h => hm (Or.inr h)
      rw [importCsv_eq_of_resolved E db filePath c1 accountId header rows (h.trans hl) hd hs,
        importCsv_eq_of_resolved E db filePath c2 accountId header rows hl hd hs]
      cases (scanRows E (resolveColumns (headerCells E header)) (lastInsertRowid db.imports)
        accountId rows 1).2 <;> rfl

/-! ## Atomicity and the trace of a failed import -/

/-- C2. Atomicity under failure: when some data row of the file fails
normalization, `importCsv` throws and the store it leaves is the store it
was given, however many earlier rows were valid. -/
theorem importCsv_atomic_on_row_failure (E : Builtins) (db : Db)
    (filePath content : JSString) (accountId : Nat) (header : JSString)
    (rows : List JSString) (k : Nat) (line : JSString)
    (hl : fileLines content = header :: rows)
    (hk : rows[k]? = some line)
    (hf : RowFails E (resolveColumns (headerCells E header)) line) :
    (importCsv E db filePath content accountId).thrown ≠ none ∧
    (importCsv E db filePath content accountId).db = db := by
  by_cases hm : (resolveColumns (headerCells E header)).dateIdx = -1 ∨
      (resolveColumns (headerCells E header)).descIdx = -1
  · rw [importCsv_of_missing E db filePath content accountId header rows hl hm]
    simp
  · have hd : (resolveColumns (headerCells E header)).dateIdx ≠ -1 := fun h => hm (Or.inl h)
    have hs : (resolveColumns (headerCells E header)).descIdx ≠ -1 := fun h => hm (Or.inr h)
    rw [importCsv_eq_of_resolved E db filePath content accountId header rows hl hd hs]
    have hne := scanRows_fails_of_rowFails E (resolveColumns (headerCells E header))
      (lastInsertRowid db.imports) accountId rows 1 k line hk hf
    cases hsc : (scanRows E (resolveColumns (headerCells E header))
        (lastInsertRowid db.imports) accountId rows 1).2 with
    | none => exact absurd hsc hne
    | some e => simp

theorem importCsv_atomic_on_row_failure_witness :
    RowFails refEnv (resolveColumns (headerCells refEnv "date,description,debit,credit".toList))
      "2024-01-06,Bad,100,50".toList ∧
    (importCsv refEnv sampleDb stmtPath goodThenBad 7).thrown ≠ none ∧
    (importCsv refEnv sampleDb stmtPath goodThenBad 7).db = sampleDb :=
  have hf : RowFails refEnv
      (resolveColumns (headerCells refEnv "date,description,debit,credit".toList))
      "2024-01-06,Bad,100,50".toList :=
    ⟨0, 0, 0, .row 0 .invalidDebitCredit, by decide!⟩
  ⟨hf, importCsv_atomic_on_row_failure refEnv sampleDb stmtPath goodThenBad 7
    "date,description,debit,credit".toList
    ["2024-01-05,Paycheck,0,1500".toList, "2024-01-06,Bad,100,50".toList] 1
    "2024-01-06,Bad,100,50".toList (by decide!) (by decide!) hf⟩

/-- C3, refuted as stated: in Scenario C the only data row fails
normalization, and yet the statements were prepared, the transaction was
started and the import record was inserted before the failure was met. -/
theorem writer_invoked_before_row_failure :
    (importCsv refEnv emptyDb stmtPath scenarioC 7).thrown =
      some (.row 1 .invalidDebitCredit) ∧
    (importCsv refEnv emptyDb stmtPath scenarioC 7).trace =
      [.prepare .insertImport, .prepare .insertTxn, .beginTransaction,
       .runInsertImport "stmt.csv".toList scenarioC, .rollback] ∧
    (importCsv refEnv emptyDb stmtPath scenarioC 7).trace ≠ [] := by
  decide!

/-- C3, amended. Row errors are met inside the storage transaction: when
the required columns resolve and some data row fails normalization, the
calls issued are the two `prepare`, the start of the transaction, one insert
of the import record, one insert per data row that precedes the first
failing row, in order, and a rollback; nothing is committed and the store
is left as it was. -/
theorem row_failure_inside_transaction (E : Builtins) (db : Db)
    (filePath content : JSString) (accountId : Nat) (header : JSString)
    (rows : List JSString) (k : Nat) (line : JSString)
    (hl : fileLines content = header :: rows)
    (hd : (resolveColumns (headerCells E header)).dateIdx ≠ -1)
    (hs : (resolveColumns (headerCells E header)).descIdx ≠ -1)
    (hk : rows[k]? = some line)
    (hf : RowFails E (resolveColumns (headerCells E header)) line) :
    ∃ (n : Nat) (bad : JSString) (ts : List Transaction) (e : ImportError), n ≤ k ∧ rows[n]? = some bad ∧
      RowFails E (resolveColumns (headerCells E header)) bad ∧
      ts.length = n ∧
      (∀ j, j < n → ∀ l, rows[j]? = some l → ∃ t, ts[j]? = some t ∧
        normalizeRow E (resolveColumns (headerCells E header)) (lastInsertRowid db.imports)
          accountId l (j + 1) = .ok t) ∧
      importCsv E db filePath content accountId =
        { db := db
          trace := openingOps E filePath content ++ ts.map .runInsertTxn ++ [.rollback]
          thrown := some e } := by
  have hne := scanRows_fails_of_rowFails E (resolveColumns (headerCells E header))
    (lastInsertRowid db.imports) accountId rows 1 k line hk hf
  rw [importCsv_eq_of_resolved E db filePath content accountId header rows hl hd hs]
  cases hsc : (scanRows E (resolveColumns (headerCells E header))
      (lastInsertRowid db.imports) accountId rows 1).2 with
  | none => exact absurd hsc hne
  | some e =>
    rcases (scanRows_some_iff E _ _ accountId rows 1 e).mp hsc with ⟨n, bad, hn, hbad, hlen, hall⟩
    refine ⟨n, bad, _, e, ?_, hn, ⟨_, _, _, _, hbad⟩, hlen, ?_, rfl⟩
    · by_contra hlt
      rcases hall k (by omega) line hk with ⟨t, -, ht⟩
      rcases (rowFails_iff E _ line (lastInsertRowid db.imports) accountId (1 + k)).mp hf
        with ⟨r, hr⟩
      rw [ht] at hr
      cases hr
    · intro j hj l hjl
      rcases hall j hj l hjl with ⟨t, ht, hnt⟩
      refine ⟨t, ht, ?_⟩
      rw [← hnt]
      congr 1
      omega

theorem row_failure_inside_transaction_witness :
    RowFails refEnv (resolveColumns (headerCells refEnv "date,description,debit,credit".toList))
      "2024-01-06,Bad,100,50".toList ∧
    ∃ (n : Nat) (bad : JSString) (ts : List Transaction) (e : ImportError), n ≤ 1 ∧
      ["2024-01-05,Paycheck,0,1500".toList, "2024-01-06,Bad,100,50".toList][n]? = some bad ∧
      RowFails refEnv
        (resolveColumns (headerCells refEnv "date,description,debit,credit".toList)) bad ∧
      ts.length = n ∧
      (∀ j, j < n → ∀ l,
        ["2024-01-05,Paycheck,0,1500".toList, "2024-01-06,Bad,100,50".toList][j]? = some l →
        ∃ t, ts[j]? = some t ∧
          normalizeRow refEnv
            (resolveColumns (headerCells refEnv "date,description,debit,credit".toList))
            (lastInsertRowid sampleDb.imports) 7 l (j + 1) = .ok t) ∧
      importCsv refEnv sampleDb stmtPath goodThenBad 7 =
        { db := sampleDb
          trace := openingOps refEnv stmtPath goodThenBad ++ ts.map .runInsertTxn ++
            [.rollback]
          thrown := some e } :=
  have hf : RowFails refEnv
      (resolveColumns (headerCells refEnv "date,description,debit,credit".toList))
      "2024-01-06,Bad,100,50".toList :=
    ⟨0, 0, 0, .row 0 .invalidDebitCredit, by decide!⟩
  ⟨hf, row_failure_inside_transaction refEnv sampleDb stmtPath goodThenBad 7
    "date,description,debit,credit".toList
    ["2024-01-05,Paycheck,0,1500".toList, "2024-01-06,Bad,100,50".toList] 1
    "2024-01-06,Bad,100,50".toList (by decide!) (by decide!) (by decide!) (by decide!) hf⟩

/-! ## Row numbers in errors -/

/-- C4, refuted as stated: in Scenario C the failing row is the first data
line, the second line of the file, and the error names row 1, not row 2. -/
theorem scenarioC_reports_row_one :
    fileLines scenarioC =
      ["date,description,debit,credit".toList, "2024-01-05,Bad,100,50".toList] ∧
    (importCsv refEnv emptyDb stmtPath scenarioC 7).thrown =
      some (.row 1 .invalidDebitCredit) ∧
    (importCsv refEnv emptyDb stmtPath scenarioC 7).thrown ≠
      some (.row 2 .invalidDebitCredit) := by
  decide!

/-- C4, amended. The number carried by a row error is the position of the
failing row among the non-empty data lines, counted from 1 with the header
line left out (its index in the list of non-empty lines): when the row at
index `k` of the data lines is the first that fails, the error is
`Row k+1` with the reason of that row, and one more empty line, after a
line break or at the head of the file, changes nothing of the error. -/
theorem row_error_carries_data_row_number (E : Builtins) (db : Db)
    (filePath content : JSString) (accountId : Nat) (header : JSString)
    (rows : List JSString) (k : Nat) (line : JSString)
    (hl : fileLines content = header :: rows)
    (hd : (resolveColumns (headerCells E header)).dateIdx ≠ -1)
    (hs : (resolveColumns (headerCells E header)).descIdx ≠ -1)
    (hk : rows[k]? = some line)
    (hf : RowFails E (resolveColumns (headerCells E header)) line)
    (hfirst : ∀ j, j < k → ∀ l, rows[j]? = some l →
      ¬ RowFails E (resolveColumns (headerCells E header)) l) :
    (∃ r, (importCsv E db filePath content accountId).thrown = some (.row (k + 1) r) ∧
      ∀ a b i, normalizeRow E (resolveColumns (headerCells E header)) a b line i =
        .throw (.row i r)) ∧
    (fileLines content)[k + 1]? = some line ∧
    (∀ a b, content = a ++ '\n' :: b →
      (importCsv E db filePath (a ++ '\n' :: '\n' :: b) accountId).thrown =
        (importCsv E db filePath content accountId).thrown) ∧
    (importCsv E db filePath ('\n' :: content) accountId).thrown =
      (importCsv E db filePath content accountId).thrown := by
  refine ⟨?_, ?_, ?_, ?_⟩
  · have hne := scanRows_fails_of_rowFails E (resolveColumns (headerCells E header))
      (lastInsertRowid db.imports) accountId rows 1 k line hk hf
    rw [importCsv_eq_of_resolved E db filePath content accountId header rows hl hd hs]
    cases hsc : (scanRows E (resolveColumns (headerCells E header))
        (lastInsertRowid db.imports) accountId rows 1).2 with
    | none => exact absurd hsc hne
    | some e =>
      rcases (scanRows_some_iff E _ _ accountId rows 1 e).mp hsc with
        ⟨n, bad, hn, hbad, -, hall⟩
      have hnk : n = k := by
        rcases Nat.lt_trichotomy n k with h | h | h
        · exact absurd ⟨_, _, _, _, hbad⟩ (hfirst n h bad hn)
        · exact h
        · rcases hall k h line hk with ⟨t, -, ht⟩
          rcases (rowFails_iff E _ line (lastInsertRowid db.imports) accountId (1 + k)).mp hf
            with ⟨r, hr⟩
          rw [ht] at hr
          cases hr
      subst hnk
      rw [hk] at hn
      cases hn
      rcases normalizeRow_throw E _ _ _ _ _ e hbad with ⟨r, he, hr⟩
      refine ⟨r, ?_, hr⟩
      simp only [he]
      congr 2
      omega
  · rw [hl]
    simpa using hk
  · intro a b hab
    apply importCsv_thrown_congr
    rw [hab]
    exact fileLines_blank_line a b
  · apply importCsv_thrown_congr
    exact fileLines_leading_blank_line content

theorem row_error_carries_data_row_number_witness :
    (RowFails refEnv (resolveColumns (headerCells refEnv "date,description,debit,credit".toList))
      "2024-01-06,Bad,100,50".toList) ∧
    ((∃ r, (importCsv refEnv emptyDb stmtPath goodThenBad 7).thrown = some (.row (1 + 1) r) ∧
      ∀ a b i, normalizeRow refEnv
          (resolveColumns (headerCells refEnv "date,description,debit,credit".toList)) a b
          "2024-01-06,Bad,100,50".toList i = .throw (.row i r)) ∧
    (fileLines goodThenBad)[1 + 1]? = some "2024-01-06,Bad,100,50".toList ∧
    (∀ a b, goodThenBad = a ++ '\n' :: b →
      (importCsv refEnv emptyDb stmtPath (a ++ '\n' :: '\n' :: b) 7).thrown =
        (importCsv refEnv emptyDb stmtPath goodThenBad 7).thrown) ∧
    (importCsv refEnv emptyDb stmtPath ('\n' :: goodThenBad) 7).thrown =
      (importCsv refEnv emptyDb stmtPath goodThenBad 7).thrown) :=
  have hf : RowFails refEnv
      (resolveColumns (headerCells refEnv "date,description,debit,credit".toList))
      "2024-01-06,Bad,100,50".toList :=
    ⟨0, 0, 0, .row 0 .invalidDebitCredit, by decide!⟩
  ⟨hf, row_error_carries_data_row_number refEnv emptyDb stmtPath goodThenBad 7
    "date,description,debit,credit".toList
    ["2024-01-05,Paycheck,0,1500".toList, "2024-01-06,Bad,100,50".toList] 1
    "2024-01-06,Bad,100,50".toList (by decide!) (by decide!) (by decide!) (by decide!) hf
    (fun j hj l hl hfl => by
      have hj0 : j = 0 := by omega
      subst hj0
      simp only [List.getElem?_cons_zero, Option.some.injEq] at hl
      subst hl
      rcases (rowFails_iff refEnv _ _ 0 0 0).mp hfl with ⟨r, hr⟩
      revert hr
      cases r <;> decide!)⟩

/-! ## The debit and credit contract -/

/-- C1, the code against its own contract. A row whose amount is `0` is
stored with debit and credit both zero, a row whose debit is `-5` with a
negative debit and a zero credit, a row whose debit is the text `abc` with
a NaN debit: each import succeeds and none of the stored transactions has
exactly one of debit and credit strictly positive. -/
theorem contract_broken_by_persisted_rows :
    ((importCsv refEnv emptyDb stmtPath zeroAmountFile 7).thrown = none ∧
      (importCsv refEnv emptyDb stmtPath zeroAmountFile 7).db.transactions =
        [{ import_id := 1, account_id := 7, txn_date := "2024-01-05".toList,
           description := "Zero".toList, debit := .fin 0, credit := .fin 0,
           raw_amount := .fin 0, raw_description := "Zero".toList }] ∧
      (importCsv refEnv emptyDb stmtPath zeroAmountFile 7).db.transactions.all
        exactlyOnePositive = false) ∧
    ((importCsv refEnv emptyDb stmtPath negativeDebitFile 7).thrown = none ∧
      (importCsv refEnv emptyDb stmtPath negativeDebitFile 7).db.transactions =
        [{ import_id := 1, account_id := 7, txn_date := "2024-01-05".toList,
           description := "Refund".toList, debit := .fin (-5), credit := .fin 0,
           raw_amount := .fin 5, raw_description := "Refund".toList }] ∧
      (importCsv refEnv emptyDb stmtPath negativeDebitFile 7).db.transactions.all
        exactlyOnePositive = false) ∧
    ((importCsv refEnv emptyDb stmtPath textDebitFile 7).thrown = none ∧
      (importCsv refEnv emptyDb stmtPath textDebitFile 7).db.transactions =
        [{ import_id := 1, account_id := 7, txn_date := "2024-01-05".toList,
           description := "Typo".toList, debit := .nan, credit := .fin 10,
           raw_amount := .nan, raw_description := "Typo".toList }] ∧
      (importCsv refEnv emptyDb stmtPath textDebitFile 7).db.transactions.all
        exactlyOnePositive = false) := by
  decide!

/-! ## Reconciliation of one row -/

theorem normalizeRow_of_desc (E : Builtins) (c : Columns) (importId accountId : Nat)
    (line : JSString) (i : Nat) (x : Char) (xs : JSString)
    (hdesc : (index (split ',' line) c.descIdx).map trim = some (x :: xs)) :
    normalizeRow E c importId accountId line i =
      match reconcile E c (split ',' line) i with
      | .throw e => .throw e
      | .ok (debit, credit, rawAmount) =>
        match parseDate E (index (split ',' line) c.dateIdx) i with
        | .throw e => .throw e
        | .ok date =>
          .ok { import_id := importId, account_id := accountId, txn_date := date,
                description := x :: xs, debit := debit, credit := credit,
                raw_amount := rawAmount, raw_description := x :: xs } := by
  unfold normalizeRow
  simp only []
  rw [hdesc]

theorem normalizeRow_ok (E : Builtins) (c : Columns) (importId accountId : Nat)
    (line : JSString) (i : Nat) (t : Transaction)
    (h : normalizeRow E c importId accountId line i = .ok t) :
    ∃ x xs debit credit raw date,
      (index (split ',' line) c.descIdx).map trim = some (x :: xs) ∧
      reconcile E c (split ',' line) i = .ok (debit, credit, raw) ∧
      parseDate E (index (split ',' line) c.dateIdx) i = .ok date ∧
      t = { import_id := importId, account_id := accountId, txn_date := date,
            description := x :: xs, debit := debit, credit := credit,
            raw_amount := raw, raw_description := x :: xs } := by
  cases hdesc : (index (split ',' line) c.descIdx).map trim with
  | none =>
    unfold normalizeRow at h
    simp only [] at h
    rw [hdesc] at h
    cases h
  | some s =>
    cases s with
    | nil =>
      unfold normalizeRow at h
      simp only [] at h
      rw [hdesc] at h
      cases h
    | cons x xs =>
      rw [normalizeRow_of_desc E c importId accountId line i x xs hdesc] at h
      cases hr : reconcile E c (split ',' line) i with
      | throw e =>
        rw [hr] at h
        cases h
      | ok v =>
        obtain ⟨debit, credit, raw⟩ := v
        rw [hr] at h
        simp only [] at h
        cases hp : parseDate E (index (split ',' line) c.dateIdx) i with
        | throw e =>
          rw [hp] at h
          cases h
        | ok date =>
          rw [hp] at h
          simp only [Res.ok.injEq] at h
          exact ⟨x, xs, debit, credit, raw, date, rfl, rfl, rfl, h.symm⟩

theorem reconcile_amount (E : Builtins) (c : Columns) (cols : List JSString) (i : Nat)
    (a : JSNum) (hcol : c.amountIdx ≠ -1) (ha : toNumber E (index cols c.amountIdx) = a)
    (hnum : a.isNaN = false) :
    reconcile E c cols i =
      if a.lt .zero then .ok (a.abs, .zero, a) else .ok (.zero, a, a) := by
  unfold reconcile
  simp only [if_pos hcol, ha, hnum]
  rfl

theorem reconcile_split (E : Builtins) (c : Columns) (cols : List JSString) (i : Nat)
    (hcol : c.amountIdx = -1) :
    reconcile E c cols i =
      if splitRejected (toNumberOrZero E (index cols c.debitIdx))
          (toNumberOrZero E (index cols c.creditIdx)) then
        .throw (.row i .invalidDebitCredit)
      else
        .ok (toNumberOrZero E (index cols c.debitIdx),
          toNumberOrZero E (index cols c.creditIdx),
          (toNumberOrZero E (index cols c.creditIdx)).sub
            (toNumberOrZero E (index cols c.debitIdx))) := by
  unfold reconcile splitRejected
  simp only [hcol, ne_eq, not_true_eq_false, if_false]

/-- C5. Signed-amount reconciliation: when an amount column is resolved
and the amount cell of a row converts to a number `a` that is not NaN, the
reconciliation step accepts the row, and the transaction emitted for it
has `raw_amount = a`, with `debit = |a|` and `credit = 0` when `a < 0`, and
`credit = a` and `debit = 0` otherwise; the debit and credit columns play
no part. -/
theorem amount_reconciliation (E : Builtins) (c : Columns) (importId accountId : Nat)
    (line : JSString) (i : Nat) (a : JSNum) (t : Transaction)
    (hcol : c.amountIdx ≠ -1)
    (ha : toNumber E (index (split ',' line) c.amountIdx) = a)
    (hnum : a.isNaN = false)
    (ht : normalizeRow E c importId accountId line i = .ok t) :
    t.raw_amount = a ∧
    (a.lt .zero = true → t.debit = a.abs ∧ t.credit = .zero) ∧
    (a.lt .zero = false → t.credit = a ∧ t.debit = .zero) ∧
    (∃ v, reconcile E c (split ',' line) i = .ok v) ∧
    (∀ dIdx cIdx,
      normalizeRow E { c with debitIdx := dIdx, creditIdx := cIdx } importId accountId line i
        = .ok t) := by
  rcases normalizeRow_ok E c importId accountId line i t ht with
    ⟨x, xs, debit, credit, raw, date, hdesc, hrec, hdate, rfl⟩
  have hrec2 := reconcile_amount E c (split ',' line) i a hcol ha hnum
  refine ⟨?_, ?_, ?_, ⟨_, hrec⟩, ?_⟩
  · rw [hrec] at hrec2
    split at hrec2 <;> simp only [Res.ok.injEq, Prod.mk.injEq] at hrec2 <;> exact hrec2.2.2
  · intro hlt
    rw [hrec, hlt] at hrec2
    simp only [if_true, Res.ok.injEq, Prod.mk.injEq] at hrec2
    exact ⟨hrec2.1, hrec2.2.1⟩
  · intro hlt
    rw [hrec, hlt] at hrec2
    simp only [Bool.false_eq_true, if_false, Res.ok.injEq, Prod.mk.injEq] at hrec2
    exact ⟨hrec2.2.1, hrec2.1⟩
  · intro dIdx cIdx
    rw [normalizeRow_of_desc E { c with debitIdx := dIdx, creditIdx := cIdx } importId
      accountId line i x xs hdesc]
    have hrec3 := reconcile_amount E { c with debitIdx := dIdx, creditIdx := cIdx }
      (split ',' line) i a hcol ha hnum
    rw [hrec3, ← hrec2, hrec]
    simp only []
    rw [hdate]

theorem amount_reconciliation_witness :
    resolveColumns (headerCells refEnv "date,description,amount".toList) = amountColumns ∧
    normalizeRow refEnv amountColumns 1 7 "2024-01-05,Coffee,-4.50".toList 1 = .ok coffeeTxn ∧
    (importCsv refEnv emptyDb stmtPath scenarioA 7).db.transactions = [coffeeTxn] ∧
    (coffeeTxn.raw_amount = .fin (-9 / 2) ∧
    (JSNum.lt (.fin (-9 / 2)) .zero = true →
      coffeeTxn.debit = JSNum.abs (.fin (-9 / 2)) ∧ coffeeTxn.credit = .zero) ∧
    (JSNum.lt (.fin (-9 / 2)) .zero = false →
      coffeeTxn.credit = .fin (-9 / 2) ∧ coffeeTxn.debit = .zero) ∧
    (∃ v, reconcile refEnv amountColumns (split ',' "2024-01-05,Coffee,-4.50".toList) 1
      = .ok v) ∧
    (∀ dIdx cIdx,
      normalizeRow refEnv { amountColumns with debitIdx := dIdx, creditIdx := cIdx } 1 7
        "2024-01-05,Coffee,-4.50".toList 1 = .ok coffeeTxn)) :=
  ⟨by decide!, by decide!, by decide!,
    amount_reconciliation refEnv amountColumns 1 7 "2024-01-05,Coffee,-4.50".toList 1
      (.fin (-9 / 2)) coffeeTxn (by decide!) (by decide!) (by decide!) (by decide!)⟩

theorem index_neg_one {α : Type} (xs : List α) : index xs (-1) = none := by
  simp [index]

/-- What a call that does not throw has done. -/
theorem importCsv_success (E : Builtins) (db : Db) (filePath content : JSString)
    (accountId : Nat) (hok : (importCsv E db filePath content accountId).thrown = none) :
    ∃ (header : JSString) (rows : List JSString) (ts : List Transaction),
      fileLines content = header :: rows ∧
      (resolveColumns (headerCells E header)).dateIdx ≠ -1 ∧
      (resolveColumns (headerCells E header)).descIdx ≠ -1 ∧
      ts.length = rows.length ∧
      (∀ k line, rows[k]? = some line → ∃ t, ts[k]? = some t ∧
        normalizeRow E (resolveColumns (headerCells E header)) (lastInsertRowid db.imports)
          accountId line (k + 1) = .ok t) ∧
      importCsv E db filePath content accountId =
        { db := { imports := db.imports ++ [newImport E db filePath content]
                  transactions := db.transactions ++ ts }
          trace := openingOps E filePath content ++ ts.map .runInsertTxn ++ [.commit]
          thrown := none } := by
  cases hl : fileLines content with
  | nil =>
    rw [importCsv_of_no_lines E db filePath content accountId hl] at hok
    cases hok
  | cons header rows =>
    by_cases hm : (resolveColumns (headerCells E header)).dateIdx = -1 ∨
        (resolveColumns (headerCells E header)).descIdx = -1
    · rw [importCsv_of_missing E db filePath content accountId header rows hl hm] at hok
      cases hok
    · have hd : (resolveColumns (headerCells E header)).dateIdx ≠ -1 := fun h => hm (Or.inl h)
      have hs : (resolveColumns (headerCells E header)).descIdx ≠ -1 := fun h => hm (Or.inr h)
      rw [importCsv_eq_of_resolved E db filePath content accountId header rows hl hd hs] at hok ⊢
      cases hsc : (scanRows E (resolveColumns (headerCells E header))
          (lastInsertRowid db.imports) accountId rows 1).2 with
      | some e =>
        rw [hsc] at hok
        cases hok
      | none =>
        rcases (scanRows_none_iff E _ _ accountId rows 1).mp hsc with ⟨hlen, hall⟩
        refine ⟨header, rows, _, rfl, hd, hs, hlen, ?_, rfl⟩
        intro k line hk
        rcases hall k line hk with ⟨t, ht, hn⟩
        refine ⟨t, ht, ?_⟩
        rw [← hn]
        congr 1
        omega

/-- C9. Missing required column: when no header cell is an alias of `date`,
or none is an alias of `description`, `importCsv` throws the missing-column
error with an empty trace of storage calls and an untouched store, whatever
the data rows are; when both resolve, that error is not thrown. -/
theorem missing_required_column (E : Builtins) (db : Db) (filePath content : JSString)
    (accountId : Nat) (header : JSString) (rows : List JSString)
    (hl : fileLines content = header :: rows) :
    (((∀ h ∈ headerCells E header, h ∉ FIELD_MAP.date) ∨
        (∀ h ∈ headerCells E header, h ∉ FIELD_MAP.description)) →
      importCsv E db filePath content accountId =
        { db := db, trace := [], thrown := some .missingColumns }) ∧
    (((∃ h ∈ headerCells E header, h ∈ FIELD_MAP.date) ∧
        (∃ h ∈ headerCells E header, h ∈ FIELD_MAP.description)) →
      (importCsv E db filePath content accountId).thrown ≠ some .missingColumns) := by
  have hdate : (resolveColumns (headerCells E header)).dateIdx = -1 ↔
      ∀ h ∈ headerCells E header, h ∉ FIELD_MAP.date := by
    unfold resolveColumns resolveColumn
    simp only [findIndex_eq_neg_one]
    simp
  have hdesc : (resolveColumns (headerCells E header)).descIdx = -1 ↔
      ∀ h ∈ headerCells E header, h ∉ FIELD_MAP.description := by
    unfold resolveColumns resolveColumn
    simp only [findIndex_eq_neg_one]
    simp
  constructor
  · intro h
    apply importCsv_of_missing E db filePath content accountId header rows hl
    rcases h with h | h
    · exact Or.inl (hdate.mpr h)
    · exact Or.inr (hdesc.mpr h)
  · rintro ⟨⟨h1, hm1, ha1⟩, ⟨h2, hm2, ha2⟩⟩
    have hd : (resolveColumns (headerCells E header)).dateIdx ≠ -1 :=
      fun h => hdate.mp h h1 hm1 ha1
    have hs : (resolveColumns (headerCells E header)).descIdx ≠ -1 :=
      fun h => hdesc.mp h h2 hm2 ha2
    rw [importCsv_eq_of_resolved E db filePath content accountId header rows hl hd hs]
    cases hsc : (scanRows E (resolveColumns (headerCells E header))
        (lastInsertRowid db.imports) accountId rows 1).2 with
    | none => simp
    | some e =>
      rcases (scanRows_some_iff E _ _ accountId rows 1 e).mp hsc with ⟨n, bad, -, hbad, -, -⟩
      rcases normalizeRow_throw E _ _ _ _ _ e hbad with ⟨r, he, -⟩
      simp [he]

theorem missing_required_column_witness :
    fileLines "posted,amount\n2024-01-05,5\n,,".toList =
      "posted,amount".toList :: ["2024-01-05,5".toList, ",,".toList] ∧
    importCsv refEnv sampleDb stmtPath "posted,amount\n2024-01-05,5\n,,".toList 7 =
      { db := sampleDb, trace := [], thrown := some .missingColumns } :=
  ⟨by decide!,
    (missing_required_column refEnv sampleDb stmtPath
      "posted,amount\n2024-01-05,5\n,,".toList 7 "posted,amount".toList
      ["2024-01-05,5".toList, ",,".toList] (by decide!)).1 (Or.inr (by decide!))⟩

/-! ## Case and surrounding blanks of a header cell -/

theorem aliasSets_disjoint :
    ∀ A ∈ aliasSets, ∀ B ∈ aliasSets, ∀ x ∈ A, x ∈ B → A = B := by
  decide

theorem SameField.mem_iff {a b : JSString} (h : SameField a b) (A : List JSString)
    (hA : A ∈ aliasSets) : a ∈ A ↔ b ∈ A := by
  rcases h with rfl | ⟨B, hB, haB, hbB⟩
  · exact Iff.rfl
  · constructor
    · intro ha
      rw [aliasSets_disjoint A hA B hB a ha haB]
      exact hbB
    · intro hb
      rw [aliasSets_disjoint A hA B hB b hb hbB]
      exact haB

theorem findIdx_congr {α : Type} (p q : α → Bool) {xs ys : List α} {R : α → α → Prop}
    (h : List.Forall₂ R xs ys) (hpq : ∀ a b, R a b → p a = q b) :
    xs.findIdx p = ys.findIdx q := by
  induction h with
  | nil => rfl
  | cons hab _ ih =>
    rw [List.findIdx_cons, List.findIdx_cons, hpq _ _ hab, ih]

theorem findIndex_congr {α : Type} (p q : α → Bool) {xs ys : List α} {R : α → α → Prop}
    (h : List.Forall₂ R xs ys) (hpq : ∀ a b, R a b → p a = q b) :
    findIndex p xs = findIndex q ys := by
  unfold findIndex
  rw [findIdx_congr p q h hpq, h.length_eq]

theorem resolveColumn_sameField {hs1 hs2 : List JSString}
    (h : List.Forall₂ SameField hs1 hs2) (A : List JSString) (hA : A ∈ aliasSets) :
    resolveColumn hs1 A = resolveColumn hs2 A := by
  unfold resolveColumn
  apply findIndex_congr _ _ h
  intro a b hab
  have := hab.mem_iff A hA
  by_cases ha : a ∈ A
  · simp [ha, this.mp ha]
  · have hb : b ∉ A := fun hb => ha (this.mpr hb)
    simp [ha, hb]

/-- C11. Alias equivalence: the alias sets of `FIELD_MAP` are pairwise
disjoint, and replacing header cells by other accepted spellings of the
same canonical fields leaves the five resolved column indices as they
were. -/
theorem alias_equivalence (hs1 hs2 : List JSString)
    (h : List.Forall₂ SameField hs1 hs2) :
    resolveColumns hs1 = resolveColumns hs2 ∧
    (∀ A ∈ aliasSets, ∀ B ∈ aliasSets, A ≠ B → ∀ x ∈ A, x ∉ B) := by
  constructor
  · unfold resolveColumns
    rw [resolveColumn_sameField h FIELD_MAP.date (by simp [aliasSets]),
      resolveColumn_sameField h FIELD_MAP.description (by simp [aliasSets]),
      resolveColumn_sameField h FIELD_MAP.amount (by simp [aliasSets]),
      resolveColumn_sameField h FIELD_MAP.debit (by simp [aliasSets]),
      resolveColumn_sameField h FIELD_MAP.credit (by simp [aliasSets])]
  · intro A hA B hB hne x hxA hxB
    exact hne (aliasSets_disjoint A hA B hB x hxA hxB)

theorem alias_equivalence_witness :
    List.Forall₂ SameField (headerCells refEnv "txn_date,memo,amt".toList)
      (headerCells refEnv "date,description,amount".toList) ∧
    (resolveColumns (headerCells refEnv "txn_date,memo,amt".toList) =
        resolveColumns (headerCells refEnv "date,description,amount".toList) ∧
      (∀ A ∈ aliasSets, ∀ B ∈ aliasSets, A ≠ B → ∀ x ∈ A, x ∉ B)) ∧
    resolveColumns (headerCells refEnv "date,description,amount".toList) =
      { dateIdx := 0, descIdx := 1, amountIdx := 2, debitIdx := -1, creditIdx := -1 } :=
  have h : List.Forall₂ SameField (headerCells refEnv "txn_date,memo,amt".toList)
      (headerCells refEnv "date,description,amount".toList) :=
    .cons (Or.inr ⟨FIELD_MAP.date, by decide, by decide, by decide⟩)
      (.cons (Or.inr ⟨FIELD_MAP.description, by decide, by decide, by decide⟩)
        (.cons (Or.inr ⟨FIELD_MAP.amount, by decide, by decide, by decide⟩) .nil))
  ⟨h, alias_equivalence _ _ h, by decide⟩

/-! ## The checks of one row -/

theorem reconcile_throw_reason (E : Builtins) (c : Columns) (cols : List JSString) (i : Nat)
    (e : ImportError) (h : reconcile E c cols i = .throw e) :
    (c.amountIdx ≠ -1 ∧ toNumber E (index cols c.amountIdx) = .nan ∧
      e = .row i .invalidAmount) ∨
    (c.amountIdx = -1 ∧ e = .row i .invalidDebitCredit) := by
  by_cases hcol : c.amountIdx = -1
  · rw [reconcile_split E c cols i hcol] at h
    split at h
    · cases h
      exact Or.inr ⟨hcol, rfl⟩
    · cases h
  · cases hn : toNumber E (index cols c.amountIdx) with
    | nan =>
      unfold reconcile at h
      simp only [if_pos hcol, hn, JSNum.isNaN, if_true] at h
      cases h
      exact Or.inl ⟨hcol, rfl, rfl⟩
    | ninf =>
      rw [reconcile_amount E c cols i _ hcol hn rfl] at h
      split at h <;> cases h
    | pinf =>
      rw [reconcile_amount E c cols i _ hcol hn rfl] at h
      split at h <;> cases h
    | fin q =>
      rw [reconcile_amount E c cols i _ hcol hn rfl] at h
      split at h <;> cases h

theorem reconcile_of_nan (E : Builtins) (c : Columns) (cols : List JSString) (i : Nat)
    (hcol : c.amountIdx ≠ -1) (hn : toNumber E (index cols c.amountIdx) = .nan) :
    reconcile E c cols i = .throw (.row i .invalidAmount) := by
  unfold reconcile
  simp only [if_pos hcol, hn, JSNum.isNaN, if_true]

theorem parseDate_throw_reason (E : Builtins) (value : Option JSString) (i : Nat)
    (e : ImportError) (h : parseDate E value i = .throw e) : e = .row i .invalidDate := by
  rcases parseDate_cases E value with hp | ⟨d, hp⟩
  · rw [hp i] at h
    cases h
    rfl
  · rw [hp i] at h
    cases h

theorem normalizeRow_of_no_desc (E : Builtins) (c : Columns) (importId accountId : Nat)
    (line : JSString) (i : Nat)
    (h : (index (split ',' line) c.descIdx).map trim = none ∨
      (index (split ',' line) c.descIdx).map trim = some []) :
    normalizeRow E c importId accountId line i = .throw (.row i .missingDescription) := by
  unfold normalizeRow
  simp only []
  rcases h with h | h <;> rw [h]

/-- The reason of a failing row, check by check. -/
theorem normalizeRow_throw_reason (E : Builtins) (c : Columns) (importId accountId : Nat)
    (line : JSString) (i : Nat) (x : Char) (xs : JSString) (e : ImportError)
    (hdesc : (index (split ',' line) c.descIdx).map trim = some (x :: xs))
    (h : normalizeRow E c importId accountId line i = .throw e) :
    reconcile E c (split ',' line) i = .throw e ∨
    ((∃ v, reconcile E c (split ',' line) i = .ok v) ∧
      parseDate E (index (split ',' line) c.dateIdx) i = .throw e) := by
  rw [normalizeRow_of_desc E c importId accountId line i x xs hdesc] at h
  cases hr : reconcile E c (split ',' line) i with
  | throw e1 =>
    rw [hr] at h
    cases h
    exact Or.inl rfl
  | ok v =>
    obtain ⟨d, cr, raw⟩ := v
    rw [hr] at h
    simp only [] at h
    cases hp : parseDate E (index (split ',' line) c.dateIdx) i with
    | throw e1 =>
      rw [hp] at h
      cases h
      exact Or.inr ⟨⟨_, rfl⟩, rfl⟩
    | ok date =>
      rw [hp] at h
      cases h

/-- C13. Description contract: a row fails with `missing description`
exactly when its description cell is absent (the row is too short) or empty
once trimmed, whatever its other cells hold; an accepted row has
`description` and `raw_description` both equal to the trimmed description
cell, which is not empty. -/
theorem description_contract (E : Builtins) (c : Columns) (importId accountId : Nat)
    (line : JSString) (i : Nat) :
    (normalizeRow E c importId accountId line i = .throw (.row i .missingDescription) ↔
      (index (split ',' line) c.descIdx = none ∨
        ∃ s, index (split ',' line) c.descIdx = some s ∧ trim s = [])) ∧
    (∀ n : Nat, c.descIdx = (n : Int) →
      (index (split ',' line) c.descIdx = none ↔ (split ',' line).length ≤ n)) ∧
    (∀ t, normalizeRow E c importId accountId line i = .ok t →
      ∃ s, index (split ',' line) c.descIdx = some s ∧ t.description = trim s ∧
        t.raw_description = trim s ∧ trim s ≠ []) := by
  refine ⟨⟨?_, ?_⟩, ?_, ?_⟩
  · intro h
    cases hi : index (split ',' line) c.descIdx with
    | none => exact Or.inl rfl
    | some s =>
      refine Or.inr ⟨s, rfl, ?_⟩
      cases hs : trim s with
      | nil => rfl
      | cons x xs =>
        have hdesc : (index (split ',' line) c.descIdx).map trim = some (x :: xs) := by
          rw [hi]
          simp [hs]
        rcases normalizeRow_throw_reason E c importId accountId line i x xs _ hdesc h with
          hr | ⟨-, hp⟩
        · rcases reconcile_throw_reason E c _ i _ hr with ⟨-, -, he⟩ | ⟨-, he⟩ <;> cases he
        · cases parseDate_throw_reason E _ i _ hp
  · intro h
    apply normalizeRow_of_no_desc
    rcases h with h | ⟨s, hs, ht⟩
    · exact Or.inl (by rw [h]; rfl)
    · exact Or.inr (by rw [hs]; simp [ht])
  · intro n hn
    rw [hn]
    unfold index
    rw [if_neg (by omega)]
    simp only [Int.toNat_ofNat]
    exact List.getElem?_eq_none_iff
  · intro t ht
    rcases normalizeRow_ok E c importId accountId line i t ht with
      ⟨x, xs, d, cr, raw, date, hdesc, -, -, rfl⟩
    cases hi : index (split ',' line) c.descIdx with
    | none =>
      rw [hi] at hdesc
      cases hdesc
    | some s =>
      rw [hi] at hdesc
      simp only [Option.map_some', Option.some.injEq] at hdesc
      exact ⟨s, rfl, hdesc.symm, hdesc.symm, by rw [hdesc]; simp⟩

theorem description_contract_witness :
    normalizeRow refEnv amountColumns 1 7 "2024-01-05,Coffee,-4.50".toList 1 = .ok coffeeTxn ∧
    (∃ s, index (split ',' "2024-01-05,Coffee,-4.50".toList) amountColumns.descIdx = some s ∧
      coffeeTxn.description = trim s ∧ coffeeTxn.raw_description = trim s ∧ trim s ≠ []) ∧
    normalizeRow refEnv amountColumns 1 7 "not a date,  ,abc".toList 1 =
      .throw (.row 1 .missingDescription) ∧
    normalizeRow refEnv amountColumns 1 7 "not a date".toList 1 =
      .throw (.row 1 .missingDescription) :=
  ⟨by decide!,
    (description_contract refEnv amountColumns 1 7 "2024-01-05,Coffee,-4.50".toList 1).2.2
      coffeeTxn (by decide!),
    (description_contract refEnv amountColumns 1 7 "not a date,  ,abc".toList 1).1.mpr
      (Or.inr ⟨"  ".toList, by decide!, by decide!⟩),
    (description_contract refEnv amountColumns 1 7 "not a date".toList 1).1.mpr
      (Or.inl (by decide!))⟩

/-! ## Amount text -/

theorem le_foldl_max (l : List Nat) (acc : Nat) :
    acc ≤ l.foldl max acc ∧ ∀ x ∈ l, x ≤ l.foldl max acc := by
  induction l generalizing acc with
  | nil => simp
  | cons y ys ih =>
    simp only [List.foldl_cons, List.mem_cons, forall_eq_or_imp]
    have h1 := (ih (max acc y)).1
    refine ⟨by omega, by omega, (ih (max acc y)).2⟩

theorem id_lt_lastInsertRowid (imports : List ImportRecord) (r : ImportRecord)
    (h : r ∈ imports) : r.id < lastInsertRowid imports := by
  unfold lastInsertRowid
  have := (le_foldl_max (imports.map (·.id)) 0).2 r.id (List.mem_map_of_mem _ h)
  omega

/-- C16. Provenance tagging: a call that succeeds adds exactly one import
record, with a fresh identifier, `source_type` equal to `csv`,
`source_name` the base name of the path and `source_hash` the digest of the
content, and every transaction it stores carries that identifier as
`import_id` and the account identifier of the caller as `account_id`. -/
theorem provenance_tagging (E : Builtins) (db : Db) (filePath content : JSString)
    (accountId : Nat) (hok : (importCsv E db filePath content accountId).thrown = none) :
    ∃ (r : ImportRecord) (ts : List Transaction),
      (importCsv E db filePath content accountId).db.imports = db.imports ++ [r] ∧
      (∀ old ∈ db.imports, old.id ≠ r.id) ∧
      r.source_type = "csv".toList ∧
      r.source_name = basename filePath ∧
      r.source_hash = E.sha256 content ∧
      (importCsv E db filePath content accountId).db.transactions = db.transactions ++ ts ∧
      ∀ t ∈ ts, t.import_id = r.id ∧ t.account_id = accountId := by
  rcases importCsv_success E db filePath content accountId hok with
    ⟨header, rows, ts, -, -, -, hlen, hall, heq⟩
  refine ⟨newImport E db filePath content, ts, by rw [heq], ?_, rfl, rfl, rfl, by rw [heq], ?_⟩
  · intro old hold
    have := id_lt_lastInsertRowid db.imports old hold
    simp only [newImport]
    omega
  · intro t ht
    rcases List.getElem_of_mem ht with ⟨k, hk, hkt⟩
    have hkr : k < rows.length := by omega
    rcases hall k rows[k] (List.getElem?_eq_getElem hkr) with ⟨t1, ht1, hn⟩
    rw [List.getElem?_eq_getElem hk, hkt] at ht1
    cases ht1
    rcases normalizeRow_ok E _ _ _ _ _ t hn with ⟨x, xs, d, cr, raw, date, -, -, -, rfl⟩
    exact ⟨rfl, rfl⟩

theorem provenance_tagging_witness :
    (importCsv refEnv sampleDb stmtPath scenarioB 7).thrown = none ∧
    (importCsv refEnv sampleDb stmtPath scenarioB 7).db.imports =
      sampleDb.imports ++
        [{ id := 2, source_type := "csv".toList, source_name := "stmt.csv".toList,
           source_hash := refEnv.sha256 scenarioB }] ∧
    ∃ (r : ImportRecord) (ts : List Transaction),
      (importCsv refEnv sampleDb stmtPath scenarioB 7).db.imports = sampleDb.imports ++ [r] ∧
      (∀ old ∈ sampleDb.imports, old.id ≠ r.id) ∧
      r.source_type = "csv".toList ∧
      r.source_name = basename stmtPath ∧
      r.source_hash = refEnv.sha256 scenarioB ∧
      (importCsv refEnv sampleDb stmtPath scenarioB 7).db.transactions =
        sampleDb.transactions ++ ts ∧
      ∀ t ∈ ts, t.import_id = r.id ∧ t.account_id = 7 :=
  ⟨by decide!, by decide!, provenance_tagging refEnv sampleDb stmtPath scenarioB 7 (by decide!)⟩

/-! ## Order of the checks -/

/-- The error thrown is that of the first failing data row. -/
theorem importCsv_thrown_first_failure (E : Builtins) (db : Db)
    (filePath content : JSString) (accountId : Nat) (header : JSString)
    (rows : List JSString) (k : Nat) (line : JSString)
    (hl : fileLines content = header :: rows)
    (hd : (resolveColumns (headerCells E header)).dateIdx ≠ -1)
    (hs : (resolveColumns (headerCells E header)).descIdx ≠ -1)
    (hk : rows[k]? = some line)
    (hf : RowFails E (resolveColumns (headerCells E header)) line)
    (hfirst : ∀ j, j < k → ∀ l, rows[j]? = some l →
      ¬ RowFails E (resolveColumns (headerCells E header)) l) :
    ∃ r, (importCsv E db filePath content accountId).thrown = some (.row (k + 1) r) ∧
      ∀ a b i, normalizeRow E (resolveColumns (headerCells E header)) a b line i =
        .throw (.row i r) := by
  have hne := scanRows_fails_of_rowFails E (resolveColumns (headerCells E header))
    (lastInsertRowid db.imports) accountId rows 1 k line hk hf
  rw [importCsv_eq_of_resolved E db filePath content accountId header rows hl hd hs]
  cases hsc : (scanRows E (resolveColumns (headerCells E header))
      (lastInsertRowid db.imports) accountId rows 1).2 with
  | none => exact absurd hsc hne
  | some e =>
    rcases (scanRows_some_iff E _ _ accountId rows 1 e).mp hsc with
      ⟨n, bad, hn, hbad, -, hall⟩
    have hnk : n = k := by
      rcases Nat.lt_trichotomy n k with h | h | h
      · exact absurd ⟨_, _, _, _, hbad⟩ (hfirst n h bad hn)
      · exact h
      · rcases hall k h line hk with ⟨t, -, ht⟩
        rcases (rowFails_iff E _ line (lastInsertRowid db.imports) accountId (1 + k)).mp hf
          with ⟨r, hr⟩
        rw [ht] at hr
        cases hr
    subst hnk
    rw [hk] at hn
    cases hn
    rcases normalizeRow_throw E _ _ _ _ _ e hbad with ⟨r, he, hr⟩
    refine ⟨r, ?_, hr⟩
    simp only [he]
    congr 2
    omega

/-- C17. Fail-fast ordering: the error thrown is that of the first invalid
data row, whatever the rows after it are; within a row a missing
description is reported first, then an invalid amount or an invalid
debit/credit whatever the date is, and an invalid date only when the two
earlier checks pass. -/
theorem fail_fast_ordering (E : Builtins) (db : Db)
    (filePath content : JSString) (accountId : Nat) (header : JSString)
    (rows : List JSString) (k : Nat) (line : JSString)
    (hl : fileLines content = header :: rows)
    (hd : (resolveColumns (headerCells E header)).dateIdx ≠ -1)
    (hs : (resolveColumns (headerCells E header)).descIdx ≠ -1)
    (hk : rows[k]? = some line)
    (hf : RowFails E (resolveColumns (headerCells E header)) line)
    (hfirst : ∀ j, j < k → ∀ l, rows[j]? = some l →
      ¬ RowFails E (resolveColumns (headerCells E header)) l) :
    (∃ r, (∀ a b i, normalizeRow E (resolveColumns (headerCells E header)) a b line i =
          .throw (.row i r)) ∧
      (importCsv E db filePath content accountId).thrown = some (.row (k + 1) r) ∧
      ∀ content2 rows2, fileLines content2 = header :: rows2 →
        rows2.take (k + 1) = rows.take (k + 1) →
        (importCsv E db filePath content2 accountId).thrown = some (.row (k + 1) r)) ∧
    (∀ (c : Columns) (l : JSString) (a b j : Nat),
      ((index (split ',' l) c.descIdx).map trim = none ∨
        (index (split ',' l) c.descIdx).map trim = some []) →
      normalizeRow E c a b l j = .throw (.row j .missingDescription)) ∧
    (∀ (c : Columns) (l : JSString) (a b j : Nat) (x : Char) (xs : JSString)
        (e : ImportError),
      (index (split ',' l) c.descIdx).map trim = some (x :: xs) →
      reconcile E c (split ',' l) j = .throw e →
      normalizeRow E c a b l j = .throw e ∧
        (e = .row j .invalidAmount ∨ e = .row j .invalidDebitCredit)) ∧
    (∀ (c : Columns) (l : JSString) (a b j : Nat),
      normalizeRow E c a b l j = .throw (.row j .invalidDate) →
      (∃ x xs, (index (split ',' l) c.descIdx).map trim = some (x :: xs)) ∧
        ∃ v, reconcile E c (split ',' l) j = .ok v) := by
  refine ⟨?_, ?_, ?_, ?_⟩
  · rcases importCsv_thrown_first_failure E db filePath content accountId header rows k line
      hl hd hs hk hf hfirst with ⟨r, hthrown, hr⟩
    refine ⟨r, hr, hthrown, ?_⟩
    intro content2 rows2 hl2 htake
    have hget : ∀ j, j < k + 1 → rows2[j]? = rows[j]? := by
      intro j hj
      have h1 : (rows2.take (k + 1))[j]? = rows2[j]? := by
        rw [List.getElem?_take, if_pos hj]
      have h2 : (rows.take (k + 1))[j]? = rows[j]? := by
        rw [List.getElem?_take, if_pos hj]
      rw [← h1, ← h2, htake]
    rcases importCsv_thrown_first_failure E db filePath content2 accountId header rows2 k line
      hl2 hd hs (by rw [hget k (by omega)]; exact hk) hf
      (fun j hj l hjl => hfirst j hj l (by rw [← hget j (by omega)]; exact hjl))
      with ⟨r2, hthrown2, hr2⟩
    have hrr : r2 = r := by
      have h1 := hr 0 0 0
      rw [hr2 0 0 0] at h1
      simpa using h1
    rw [hthrown2, hrr]
  · intro c l a b j h
    exact normalizeRow_of_no_desc E c a b l j h
  · intro c l a b j x xs e hdesc hrec
    refine ⟨?_, ?_⟩
    · rw [normalizeRow_of_desc E c a b l j x xs hdesc, hrec]
    · rcases reconcile_throw_reason E c _ j e hrec with ⟨-, -, he⟩ | ⟨-, he⟩
      · exact Or.inl he
      · exact Or.inr he
  · intro c l a b j h
    cases hdesc : (index (split ',' l) c.descIdx).map trim with
    | none =>
      rw [normalizeRow_of_no_desc E c a b l j (Or.inl hdesc)] at h
      cases h
    | some s =>
      cases s with
      | nil =>
        rw [normalizeRow_of_no_desc E c a b l j (Or.inr hdesc)] at h
        cases h
      | cons x xs =>
        refine ⟨⟨x, xs, rfl⟩, ?_⟩
        rcases normalizeRow_throw_reason E c a b l j x xs _ hdesc h with hr | ⟨hv, -⟩
        · rcases reconcile_throw_reason E c _ j _ hr with ⟨-, -, he⟩ | ⟨-, he⟩ <;> cases he
        · exact hv

theorem fail_fast_ordering_witness :
    RowFails refEnv (resolveColumns (headerCells refEnv "date,description,amount".toList))
      "someday,Coffee,abc".toList ∧
    (importCsv refEnv emptyDb stmtPath twoBadRows 7).thrown =
      some (.row 1 .invalidAmount) ∧
    normalizeRow refEnv amountColumns 1 7 "someday,Coffee,abc".toList 1 =
      .throw (.row 1 .invalidAmount) ∧
    normalizeRow refEnv amountColumns 1 7 "someday,Coffee,5".toList 1 =
      .throw (.row 1 .invalidDate) ∧
    ∃ r, (∀ a b i, normalizeRow refEnv
          (resolveColumns (headerCells refEnv "date,description,amount".toList)) a b
          "someday,Coffee,abc".toList i = .throw (.row i r)) ∧
      (importCsv refEnv emptyDb stmtPath twoBadRows 7).thrown = some (.row (0 + 1) r) ∧
      ∀ content2 rows2, fileLines content2 = "date,description,amount".toList :: rows2 →
        rows2.take (0 + 1) =
          ["someday,Coffee,abc".toList, "2024-01-05,,5".toList].take (0 + 1) →
        (importCsv refEnv emptyDb stmtPath content2 7).thrown = some (.row (0 + 1) r) :=
  have hf : RowFails refEnv
      (resolveColumns (headerCells refEnv "date,description,amount".toList))
      "someday,Coffee,abc".toList :=
    ⟨0, 0, 0, .row 0 .invalidAmount, by decide!⟩
  ⟨hf, by decide!, by decide!, by decide!,
    (fail_fast_ordering refEnv emptyDb stmtPath twoBadRows 7
      "date,description,amount".toList
      ["someday,Coffee,abc".toList, "2024-01-05,,5".toList] 0
      "someday,Coffee,abc".toList (by decide!) (by decide!) (by decide!) (by decide!) hf
      (fun j hj => by omega)).1⟩

/-! ## Amount mode, signs -/

/-- C18. In amount mode every accepted row has `debit >= 0`, `credit >= 0`
and at least one of the two equal to zero; when the amount is not zero,
exactly one of the two is strictly positive and the other is zero. -/
theorem amount_mode_invariant (E : Builtins) (c : Columns) (importId accountId : Nat)
    (line : JSString) (i : Nat) (t : Transaction)
    (hcol : c.amountIdx ≠ -1)
    (ht : normalizeRow E c importId accountId line i = .ok t) :
    JSNum.ge t.debit .zero = true ∧ JSNum.ge t.credit .zero = true ∧
    (t.debit = .zero ∨ t.credit = .zero) ∧
    (toNumber E (index (split ',' line) c.amountIdx) ≠ .zero →
      exactlyOnePositive t = true) := by
  rcases normalizeRow_ok E c importId accountId line i t ht with
    ⟨x, xs, d, cr, raw, date, -, hrec, -, rfl⟩
  cases hn : toNumber E (index (split ',' line) c.amountIdx) with
  | nan =>
    rw [reconcile_of_nan E c _ i hcol hn] at hrec
    cases hrec
  | ninf =>
    rw [reconcile_amount E c _ i _ hcol hn rfl] at hrec
    simp only [JSNum.lt, JSNum.zero, if_true, Res.ok.injEq, Prod.mk.injEq] at hrec
    obtain ⟨rfl, rfl, rfl⟩ := hrec
    simp [JSNum.ge, JSNum.lt, JSNum.isNaN, JSNum.abs, JSNum.zero, exactlyOnePositive,
      JSNum.gt, JSNum.strictEq]
  | pinf =>
    rw [reconcile_amount E c _ i _ hcol hn rfl] at hrec
    simp only [JSNum.lt, JSNum.zero, Bool.false_eq_true, if_false, Res.ok.injEq,
      Prod.mk.injEq] at hrec
    obtain ⟨rfl, rfl, rfl⟩ := hrec
    simp [JSNum.ge, JSNum.lt, JSNum.isNaN, JSNum.zero, exactlyOnePositive,
      JSNum.gt, JSNum.strictEq]
  | fin q =>
    rw [reconcile_amount E c _ i _ hcol hn rfl] at hrec
    by_cases hq : q < 0
    · simp only [JSNum.lt, JSNum.zero, hq, decide_True, if_true, Res.ok.injEq,
        Prod.mk.injEq] at hrec
      obtain ⟨rfl, rfl, rfl⟩ := hrec
      have hpos : 0 < |q| := abs_pos.mpr (ne_of_lt hq)
      simp [JSNum.ge, JSNum.lt, JSNum.isNaN, JSNum.abs, JSNum.zero, exactlyOnePositive,
        JSNum.gt, JSNum.strictEq, hpos]
    · simp only [JSNum.lt, JSNum.zero, hq, decide_False, Bool.false_eq_true, if_false,
        Res.ok.injEq, Prod.mk.injEq] at hrec
      obtain ⟨rfl, rfl, rfl⟩ := hrec
      have hq0 : 0 ≤ q := not_lt.mp hq
      simp only [JSNum.ge, JSNum.lt, JSNum.isNaN, JSNum.zero, exactlyOnePositive,
        JSNum.gt, JSNum.strictEq, Bool.not_false, Bool.true_and, lt_self_iff_false,
        decide_False, Bool.not_eq_true', decide_eq_false_iff_not, not_lt, hq0,
        or_true, true_and, ne_eq, JSNum.fin.injEq, Bool.false_and, Bool.false_or,
        decide_True, Bool.and_true, decide_eq_true_eq]
      exact ⟨Or.inl trivial, fun hne => lt_of_le_of_ne hq0 (Ne.symm hne)⟩

theorem amount_mode_invariant_witness :
    normalizeRow refEnv amountColumns 1 7 "2024-01-05,Coffee,-4.50".toList 1 = .ok coffeeTxn ∧
    JSNum.ge coffeeTxn.debit .zero = true ∧ JSNum.ge coffeeTxn.credit .zero = true ∧
    (coffeeTxn.debit = .zero ∨ coffeeTxn.credit = .zero) ∧
    (toNumber refEnv (index (split ',' "2024-01-05,Coffee,-4.50".toList)
        amountColumns.amountIdx) ≠ .zero →
      exactlyOnePositive coffeeTxn = true) :=
  ⟨by decide!,
    amount_mode_invariant refEnv amountColumns 1 7 "2024-01-05,Coffee,-4.50".toList 1
      coffeeTxn (by decide!) (by decide!)⟩

/-! ## Files without an amount-bearing column, files without a line -/

theorem importCsv_db_of_thrown (E : Builtins) (db : Db) (filePath content : JSString)
    (accountId : Nat) (e : ImportError)
    (h : (importCsv E db filePath content accountId).thrown = some e) :
    (importCsv E db filePath content accountId).db = db := by
  cases hl : fileLines content with
  | nil => rw [importCsv_of_no_lines E db filePath content accountId hl]
  | cons header rows =>
    by_cases hm : (resolveColumns (headerCells E header)).dateIdx = -1 ∨
        (resolveColumns (headerCells E header)).descIdx = -1
    · rw [importCsv_of_missing E db filePath content accountId header rows hl hm]
    · have hd : (resolveColumns (headerCells E header)).dateIdx ≠ -1 := fun h => hm (Or.inl h)
      have hs : (resolveColumns (headerCells E header)).descIdx ≠ -1 := fun h => hm (Or.inr h)
      rw [importCsv_eq_of_resolved E db filePath content accountId header rows hl hd hs] at h ⊢
      cases hsc : (scanRows E (resolveColumns (headerCells E header))
          (lastInsertRowid db.imports) accountId rows 1).2 with
      | none =>
        rw [hsc] at h
        cases h
      | some e1 => rfl

theorem splitRejected_zero_zero : splitRejected .zero .zero = true := by
  simp [splitRejected, JSNum.strictEq, JSNum.zero]

/-- C19. A header that resolves date and description and none of amount,
debit and credit passes the required-column check; every data row with a
description is then rejected with `invalid debit/credit`, both numbers
being zero by default, so the import fails on its first data row and
succeeds only when there is no data row. -/
theorem no_amount_bearing_column (E : Builtins) (db : Db)
    (filePath content : JSString) (accountId : Nat) (header : JSString)
    (rows : List JSString)
    (hl : fileLines content = header :: rows)
    (hd : (resolveColumns (headerCells E header)).dateIdx ≠ -1)
    (hs : (resolveColumns (headerCells E header)).descIdx ≠ -1)
    (ha : (resolveColumns (headerCells E header)).amountIdx = -1)
    (hdb : (resolveColumns (headerCells E header)).debitIdx = -1)
    (hcr : (resolveColumns (headerCells E header)).creditIdx = -1) :
    (importCsv E db filePath content accountId).thrown ≠ some .missingColumns ∧
    (∀ (line : JSString) (a b i : Nat) (x : Char) (xs : JSString),
      (index (split ',' line) (resolveColumns (headerCells E header)).descIdx).map trim =
        some (x :: xs) →
      normalizeRow E (resolveColumns (headerCells E header)) a b line i =
        .throw (.row i .invalidDebitCredit)) ∧
    (rows ≠ [] →
      ((importCsv E db filePath content accountId).thrown =
          some (.row 1 .missingDescription) ∨
        (importCsv E db filePath content accountId).thrown =
          some (.row 1 .invalidDebitCredit)) ∧
      (importCsv E db filePath content accountId).db = db) ∧
    (rows = [] → (importCsv E db filePath content accountId).thrown = none) := by
  have hrow : ∀ (line : JSString) (a b i : Nat) (x : Char) (xs : JSString),
      (index (split ',' line) (resolveColumns (headerCells E header)).descIdx).map trim =
        some (x :: xs) →
      normalizeRow E (resolveColumns (headerCells E header)) a b line i =
        .throw (.row i .invalidDebitCredit) := by
    intro line a b i x xs hdesc
    rw [normalizeRow_of_desc E _ a b line i x xs hdesc, reconcile_split E _ _ i ha, hdb, hcr,
      index_neg_one]
    simp only [toNumberOrZero, splitRejected_zero_zero, if_true]
  have hfail : ∀ line, ∃ r, (r = RowReason.missingDescription ∨
      r = RowReason.invalidDebitCredit) ∧
      ∀ a b i, normalizeRow E (resolveColumns (headerCells E header)) a b line i =
        .throw (.row i r) := by
    intro line
    cases hdesc : (index (split ',' line)
        (resolveColumns (headerCells E header)).descIdx).map trim with
    | none =>
      exact ⟨_, Or.inl rfl, fun a b i => normalizeRow_of_no_desc E _ a b line i (Or.inl hdesc)⟩
    | some s =>
      cases s with
      | nil =>
        exact ⟨_, Or.inl rfl,
          fun a b i => normalizeRow_of_no_desc E _ a b line i (Or.inr hdesc)⟩
      | cons x xs => exact ⟨_, Or.inr rfl, fun a b i => hrow line a b i x xs hdesc⟩
  refine ⟨?_, hrow, ?_, ?_⟩
  · rw [importCsv_eq_of_resolved E db filePath content accountId header rows hl hd hs]
    cases hsc : (scanRows E (resolveColumns (headerCells E header))
        (lastInsertRowid db.imports) accountId rows 1).2 with
    | none => simp
    | some e =>
      rcases (scanRows_some_iff E _ _ accountId rows 1 e).mp hsc with ⟨n, bad, -, hbad, -, -⟩
      rcases normalizeRow_throw E _ _ _ _ _ e hbad with ⟨r, he, -⟩
      simp [he]
  · intro hne
    cases rows with
    | nil => exact absurd rfl hne
    | cons line rest =>
      rcases hfail line with ⟨r, hr, hall⟩
      rcases importCsv_thrown_first_failure E db filePath content accountId header
        (line :: rest) 0 line hl hd hs (by simp) ⟨0, 0, 0, _, hall 0 0 0⟩
        (fun j hj => by omega) with ⟨r2, hthrown, hall2⟩
      have hrr : r2 = r := by
        have h1 := hall 0 0 0
        rw [hall2 0 0 0] at h1
        simpa using h1
      subst hrr
      refine ⟨?_, importCsv_db_of_thrown E db filePath content accountId _ hthrown⟩
      rcases hr with rfl | rfl
      · exact Or.inl hthrown
      · exact Or.inr hthrown
  · intro hnil
    subst hnil
    rw [importCsv_eq_of_resolved E db filePath content accountId header [] hl hd hs]
    simp [scanRows]

theorem no_amount_bearing_column_witness :
    resolveColumns (headerCells refEnv "date,description".toList) =
      { dateIdx := 0, descIdx := 1, amountIdx := -1, debitIdx := -1, creditIdx := -1 } ∧
    (importCsv refEnv sampleDb stmtPath noAmountFile 7).thrown =
      some (.row 1 .invalidDebitCredit) ∧
    (["2024-01-05,Coffee".toList] ≠ [] →
      ((importCsv refEnv sampleDb stmtPath noAmountFile 7).thrown =
          some (.row 1 .missingDescription) ∨
        (importCsv refEnv sampleDb stmtPath noAmountFile 7).thrown =
          some (.row 1 .invalidDebitCredit)) ∧
      (importCsv refEnv sampleDb stmtPath noAmountFile 7).db = sampleDb) ∧
    (importCsv refEnv sampleDb stmtPath "date,description\n".toList 7).thrown = none :=
  ⟨by decide!, by decide!,
    (no_amount_bearing_column refEnv sampleDb stmtPath noAmountFile 7
      "date,description".toList ["2024-01-05,Coffee".toList] (by decide!) (by decide!)
      (by decide!) (by decide!) (by decide!) (by decide!)).2.2.1,
    (no_amount_bearing_column refEnv sampleDb stmtPath "date,description\n".toList 7
      "date,description".toList [] (by decide!) (by decide!)
      (by decide!) (by decide!) (by decide!) (by decide!)).2.2.2 rfl⟩

theorem fileLines_eq_nil_iff (content : JSString) :
    fileLines content = [] ↔ ∀ c ∈ content, c = '\n' := by
  induction content with
  | nil => simp [fileLines, split]
  | cons c cs ih =>
    by_cases hc : c = '\n'
    · subst hc
      rw [fileLines_leading_blank_line, ih]
      simp
    · have hne : fileLines (c :: cs) ≠ [] := by
        unfold fileLines
        rw [split_cons, if_neg hc]
        cases hsp : split '\n' cs with
        | nil => simp
        | cons w ws => simp
      constructor
      · intro h
        exact absurd h hne
      · intro h
        exact absurd (h c (by simp)) hc

/-- C20. The header line exists exactly when the file has a non-empty
line: a content made of line breaks only, the empty content included, has
no line, and `importCsv` then throws the `TypeError` of `lines[0].split`,
with no storage call and an untouched store, not the missing-column error;
any other content has a first line and never throws that `TypeError`. -/
theorem header_line_exists_iff (E : Builtins) (db : Db) (filePath content : JSString)
    (accountId : Nat) :
    (fileLines content = [] ↔ ∀ c ∈ content, c = '\n') ∧
    (fileLines content = [] →
      importCsv E db filePath content accountId =
        { db := db, trace := [], thrown := some .typeError } ∧
      (importCsv E db filePath content accountId).thrown ≠ some .missingColumns) ∧
    ((∃ c ∈ content, c ≠ '\n') →
      ∃ header rows, fileLines content = header :: rows ∧ header ≠ [] ∧
        (importCsv E db filePath content accountId).thrown ≠ some .typeError) := by
  refine ⟨fileLines_eq_nil_iff content, ?_, ?_⟩
  · intro h
    rw [importCsv_of_no_lines E db filePath content accountId h]
    exact ⟨rfl, by simp⟩
  · rintro ⟨c, hc, hcn⟩
    cases hl : fileLines content with
    | nil => exact absurd ((fileLines_eq_nil_iff content).mp hl c hc) hcn
    | cons header rows =>
      have hmem : header ∈ fileLines content := by rw [hl]; simp
      have hne : header ≠ [] := by
        unfold fileLines at hmem
        intro hnil
        rw [hnil] at hmem
        simp at hmem
      refine ⟨header, rows, rfl, hne, ?_⟩
      by_cases hm : (resolveColumns (headerCells E header)).dateIdx = -1 ∨
          (resolveColumns (headerCells E header)).descIdx = -1
      · rw [importCsv_of_missing E db filePath content accountId header rows hl hm]
        simp
      · have hd : (resolveColumns (headerCells E header)).dateIdx ≠ -1 :=
          fun h => hm (Or.inl h)
        have hs : (resolveColumns (headerCells E header)).descIdx ≠ -1 :=
          fun h => hm (Or.inr h)
        rw [importCsv_eq_of_resolved E db filePath content accountId header rows hl hd hs]
        cases hsc : (scanRows E (resolveColumns (headerCells E header))
            (lastInsertRowid db.imports) accountId rows 1).2 with
        | none => simp
        | some e =>
          rcases (scanRows_some_iff E _ _ accountId rows 1 e).mp hsc with
            ⟨n, bad, -, hbad, -, -⟩
          rcases normalizeRow_throw E _ _ _ _ _ e hbad with ⟨r, he, -⟩
          simp [he]

theorem header_line_exists_iff_witness :
    (fileLines "\n\n".toList = [] ∧
      importCsv refEnv sampleDb stmtPath "\n\n".toList 7 =
        { db := sampleDb, trace := [], thrown := some .typeError } ∧
      (importCsv refEnv sampleDb stmtPath "\n\n".toList 7).thrown ≠ some .missingColumns) ∧
    (importCsv refEnv sampleDb stmtPath [] 7 =
        { db := sampleDb, trace := [], thrown := some .typeError } ∧
      (importCsv refEnv sampleDb stmtPath [] 7).thrown ≠ some .missingColumns) ∧
    ∃ header rows, fileLines scenarioA = header :: rows ∧ header ≠ [] ∧
      (importCsv refEnv sampleDb stmtPath scenarioA 7).thrown ≠ some .typeError :=
  ⟨⟨by decide, (header_line_exists_iff refEnv sampleDb stmtPath "\n\n".toList 7).2.1
      (by decide)⟩,
    (header_line_exists_iff refEnv sampleDb stmtPath [] 7).2.1 (by decide),
    (header_line_exists_iff refEnv sampleDb stmtPath scenarioA 7).2.2
      ⟨'d', by decide, by decide⟩⟩

/-! ## Dates -/

/-- C15, the code against its own contract. A date of the year 10000 is
parsed, its ISO string starts with the sign and the six digits of an
expanded year, and the first ten characters kept as `txn_date` are
`+010000-01`: the row is stored with a `txn_date` that is not of the form
`YYYY-MM-DD`.  A date of four-digit year is kept as it is, and a text that
is not a date fails with `invalid date`. -/
theorem expanded_year_date_truncated :
    ((importCsv refEnv emptyDb stmtPath farFutureFile 7).thrown = none ∧
      (importCsv refEnv emptyDb stmtPath farFutureFile 7).db.transactions =
        [{ import_id := 1, account_id := 7, txn_date := "+010000-01".toList,
           description := "Future".toList, debit := .fin 0, credit := .fin 5,
           raw_amount := .fin 5, raw_description := "Future".toList }]) ∧
    (newDate refEnv (some "+010000-01-01".toList) = some 253402300800000 ∧
      toISOString 253402300800000 = "+010000-01-01T00:00:00.000Z".toList ∧
      parseDate refEnv (some "+010000-01-01".toList) 1 = .ok "+010000-01".toList ∧
      parseDate refEnv (some "-000001-12-31".toList) 1 = .ok "-000001-12".toList) ∧
    (parseDate refEnv (some "2024-01-05".toList) 1 = .ok "2024-01-05".toList ∧
      parseDate refEnv (some "someday".toList) 1 = .throw (.row 1 .invalidDate) ∧
      parseDate refEnv none 1 = .throw (.row 1 .invalidDate)) := by
  decide!

end LedgerImporter
